import Mathlib

/-!
# Verification of the red-black tree core of `DS-Playground` (`src/include/tree/RBTree.h`)

The C++ source stores nodes behind `std::shared_ptr` with a `std::weak_ptr`
back-reference to the parent.  We embed this pointer structure shallowly as an
*arena*: a heap is a list of node records, a pointer is `Option Nat` (an index
into the arena, or null), and every C++ pointer-field assignment becomes a
sequential functional update of the arena.  The template parameter `T` is
instantiated at `Int` (any ordered type works identically) and the template
boolean `ALLOW_DUP` becomes an explicit `Bool` argument.

C++ `assert` failures and (for the loops/recursions) fuel exhaustion are both
modelled by an `Option.none` result; real executions on well-formed trees are
shown to return `some`.
-/

namespace DS

/-- Enumeration for node color (`enum RBColor { BLACK, RED }`). -/
inductive RBColor where
  | BLACK
  | RED
deriving DecidableEq, Repr

/-- A pointer: either null or an index into the arena. -/
abbrev Ptr := Option Nat

/-- Node for red-black tree (`class RBTreeNode`): color, value and the three
relations.  `parent` models the `weak_ptr` (reading it models `.lock()`). -/
structure RBTreeNode where
  color : RBColor
  value : Int
  parent : Ptr
  left : Ptr
  right : Ptr
deriving DecidableEq, Repr

instance : Inhabited RBTreeNode := ⟨⟨.BLACK, 0, none, none, none⟩⟩

/-- The arena of nodes; an index `i` is a live pointer when `i < h.length`. -/
abbrev Heap := List RBTreeNode

/-- Dereference a pointer index (C++ `p->`).  Out-of-range indices return a
default node; they never occur in the executions we reason about. -/
def getNode (h : Heap) (i : Nat) : RBTreeNode := h.getD i default

/-- Write a whole node record back to the arena. -/
def setNode (h : Heap) (i : Nat) (n : RBTreeNode) : Heap := h.set i n

/-- C++ `p->_color = c`. -/
def setColor (h : Heap) (i : Nat) (c : RBColor) : Heap :=
  setNode h i { getNode h i with color := c }

/-- C++ `p->_value = v`. -/
def setValue (h : Heap) (i : Nat) (v : Int) : Heap :=
  setNode h i { getNode h i with value := v }

/-- C++ `p->_parent = q`. -/
def setParent (h : Heap) (i : Nat) (q : Ptr) : Heap :=
  setNode h i { getNode h i with parent := q }

/-- C++ `p->_left = q`. -/
def setLeft (h : Heap) (i : Nat) (q : Ptr) : Heap :=
  setNode h i { getNode h i with left := q }

/-- C++ `p->_right = q`. -/
def setRight (h : Heap) (i : Nat) (q : Ptr) : Heap :=
  setNode h i { getNode h i with right := q }

/-- `std::make_shared<RBTreeNode>(...)`: allocate a fresh node, returning the
new heap and the fresh index. -/
def alloc (h : Heap) (n : RBTreeNode) : Heap × Nat := (h ++ [n], h.length)

/-- `IsRoot()`: `!_parent.lock()`. -/
def IsRoot (h : Heap) (i : Nat) : Bool := (getNode h i).parent = none

/-- `IsLeaf()`: `!_left && !_right`. -/
def IsLeaf (h : Heap) (i : Nat) : Bool :=
  (getNode h i).left = none ∧ (getNode h i).right = none

/-- `IsBlack(p)`: `!p || p->_color == BLACK`. -/
def IsBlack (h : Heap) (p : Ptr) : Bool :=
  match p with
  | none => true
  | some i => (getNode h i).color = RBColor.BLACK

/-- `IsRed(p)`: `!IsBlack(p)`. -/
def IsRed (h : Heap) (p : Ptr) : Bool := !(IsBlack h p)

/-- The `while (cur)` descent loop of `Search`, with fuel.
`none` = fuel exhausted; `some p` = the loop exited with `cur = p`. -/
def SearchLoop (h : Heap) (value : Int) : Nat → Ptr → Option Ptr
  | _, none => some none
  | 0, some _ => none
  | fuel + 1, some i =>
      let n := getNode h i
      if value = n.value then some (some i)
      else if value < n.value then SearchLoop h value fuel n.left
      else SearchLoop h value fuel n.right

/-- `Search(root, value)`: pure descent from the root.  The fuel
`h.length + 1` suffices on any acyclic heap. -/
def Search (h : Heap) (root : Ptr) (value : Int) : Option Ptr :=
  SearchLoop h value (h.length + 1) root

/-- `LeftRotate(top)`.  `top` is the C++ reference-to-pointer argument; the
returned `Nat` is the value the caller's variable holds afterwards
(`top = that`).  `none` models the `assert(top && top->_right)` failing. -/
def LeftRotate (h : Heap) (top : Nat) : Option (Heap × Nat) :=
  match (getNode h top).right with
  | none => none
  | some that =>
      let self := top
      let parent := (getNode h self).parent
      -- Rotate key nodes
      let h := setParent h self (some that)
      let h := setRight h self ((getNode h that).left)
      let h := setLeft h that (some self)
      let h := setParent h that parent
      -- Adjust subtrees
      let h := match (getNode h self).right with
               | some r => setParent h r (some self)
               | none => h
      -- Adjust parent
      let h := match parent with
               | some p =>
                   if (getNode h p).left = some self
                   then setLeft h p (some that)
                   else setRight h p (some that)
               | none => h
      some (h, that)

/-- `RightRotate(top)`, the mirror image (note the source's statement order:
`self->_left = that->_right` comes first). -/
def RightRotate (h : Heap) (top : Nat) : Option (Heap × Nat) :=
  match (getNode h top).left with
  | none => none
  | some that =>
      let self := top
      let parent := (getNode h self).parent
      -- Rotate key nodes
      let h := setLeft h self ((getNode h that).right)
      let h := setParent h self (some that)
      let h := setRight h that (some self)
      let h := setParent h that parent
      -- Adjust subtrees
      let h := match (getNode h self).left with
               | some l => setParent h l (some self)
               | none => h
      -- Adjust parent
      let h := match parent with
               | some p =>
                   if (getNode h p).left = some self
                   then setLeft h p (some that)
                   else setRight h p (some that)
               | none => h
      some (h, that)

/-- Result of the descent loop inside `Insert`: either the duplicate check
fired (`return false`) or the loop exited with `parent` holding the
attachment point. -/
inductive FindRes where
  | reject
  | attach (parent : Nat)
deriving DecidableEq, Repr

/-- The `while (cur)` descent loop of `Insert` (arguments: fuel, `parent`,
`cur`).  `none` = fuel exhausted, or the loop ended with a null `parent`
(impossible from `Insert`, which enters with `cur = root ≠ null`). -/
def InsertLoop (h : Heap) (AD : Bool) (value : Int) : Nat → Ptr → Ptr → Option FindRes
  | _, parent, none =>
      match parent with
      | some p => some (.attach p)
      | none => none
  | 0, _, some _ => none
  | fuel + 1, _, some i =>
      let n := getNode h i
      if AD = false ∧ value = n.value then some .reject
      else if value ≤ n.value then InsertLoop h AD value fuel (some i) n.left
      else InsertLoop h AD value fuel (some i) n.right

/-- `__Insert_Adjust(cur, root)`, with fuel for the upward recursion.
`root` is the index the caller's root pointer holds (non-null whenever the
fixup runs); the result is the new heap and the new root index.  `none`
models a failed `assert` or fuel exhaustion. -/
def Insert_Adjust : Nat → Heap → Nat → Nat → Option (Heap × Nat)
  | 0, _, _, _ => none
  | fuel + 1, h, cur, root =>
    -- assert(cur->_color == RED)
    if (getNode h cur).color ≠ RBColor.RED then none else
    match (getNode h cur).parent with
    | none =>
        -- No parent: assert(cur == root); recolor black
        if cur ≠ root then none else
        some (setColor h cur .BLACK, root)
    | some parent =>
      -- Case 1: parent is black
      if (getNode h parent).color = RBColor.BLACK then some (h, root) else
      match (getNode h parent).parent with
      | none => none      -- assert(grand != nullptr)
      | some grand =>
        if some parent = (getNode h grand).left then
          -- Left
          let uncle := (getNode h grand).right
          if IsRed h uncle then
            -- Case 2: uncle is red (hence non-null)
            match uncle with
            | none => none
            | some u =>
                let h := setColor h parent .BLACK
                let h := setColor h u .BLACK
                let h := setColor h grand .RED
                Insert_Adjust fuel h grand root
          else
            -- Case 3: uncle is black
            -- Case 3.1 → 3.2 conversion: LeftRotate(parent); the variable
            -- `parent` then holds the rotation's new top (`cur = parent->_left`
            -- is reassigned but never read again).
            match (if some cur = (getNode h parent).right
                   then LeftRotate h parent
                   else some (h, parent)) with
            | none => none
            | some (h, parent) =>
                -- Case 3.2
                let h := setColor h parent .BLACK
                let h := setColor h grand .RED
                let change := grand = root
                match RightRotate h grand with
                | none => none
                | some (h, newtop) =>
                    some (h, if change then newtop else root)
        else
          -- Right, symmetric
          let uncle := (getNode h grand).left
          if IsRed h uncle then
            match uncle with
            | none => none
            | some u =>
                let h := setColor h parent .BLACK
                let h := setColor h u .BLACK
                let h := setColor h grand .RED
                Insert_Adjust fuel h grand root
          else
            match (if some cur = (getNode h parent).left
                   then RightRotate h parent
                   else some (h, parent)) with
            | none => none
            | some (h, parent) =>
                let h := setColor h parent .BLACK
                let h := setColor h grand .RED
                let change := grand = root
                match LeftRotate h grand with
                | none => none
                | some (h, newtop) =>
                    some (h, if change then newtop else root)

/-- `Insert(root, value)`: result is `(new heap, new root pointer, returned
bool)`.  `none` models a failed `assert` or fuel exhaustion. -/
def Insert (h : Heap) (AD : Bool) (root : Ptr) (value : Int) :
    Option (Heap × Ptr × Bool) :=
  match root with
  | none =>
      -- Empty tree: create a single black node as root
      let (h, i) := alloc h ⟨.BLACK, value, none, none, none⟩
      some (h, some i, true)
  | some r =>
      -- assert(root->IsRoot())
      if ¬ IsRoot h r then none else
      match InsertLoop h AD value (h.length + 1) none (some r) with
      | none => none
      | some .reject => some (h, some r, false)
      | some (.attach parent) =>
          -- Add a new node to the tree
          let (h, cur) := alloc h ⟨.RED, value, some parent, none, none⟩
          let h := if value ≤ (getNode h parent).value
                   then setLeft h parent (some cur)
                   else setRight h parent (some cur)
          -- Adjust the tree
          match Insert_Adjust (h.length + 1) h cur r with
          | none => none
          | some (h, root) => some (h, some root, true)

/-- `__Remove_Adjust(cur, root)`, with fuel for the upward recursion.
`cur` is `const` in the source (the pointer itself is never reassigned);
the result is the new heap and new root index. -/
def Remove_Adjust : Nat → Heap → Nat → Nat → Option (Heap × Nat)
  | 0, _, _, _ => none
  | fuel + 1, h, cur, root =>
    -- assert(cur->_color == BLACK)
    if (getNode h cur).color ≠ RBColor.BLACK then none else
    match (getNode h cur).parent with
    | none => if cur ≠ root then none else some (h, root)
    | some parent =>
      if some cur = (getNode h parent).left then
        -- Left
        -- Case 1: sibling is red → convert to black-sibling cases
        match (if IsRed h ((getNode h parent).right) then
                 match (getNode h parent).right with
                 | none => none
                 | some s =>
                     let h := setColor h parent .RED
                     let h := setColor h s .BLACK
                     let change := parent = root
                     match LeftRotate h parent with
                     | none => none
                     | some (h, newtop) =>
                         let root := if change then newtop else root
                         -- Update parent and sibling
                         match (getNode h cur).parent with
                         | none => none      -- parent->_right dereference below
                         | some p2 => some (h, root, p2, (getNode h p2).right)
               else
                 some (h, root, parent, (getNode h parent).right)) with
      | none => none
      | some (h, root, parent, sib) =>
        -- assert(sib != nullptr)
        match sib with
        | none => none
        | some sib0 =>
          -- Case 3: right cousin black, left cousin red → convert to case 2
          match (if IsBlack h (getNode h sib0).right = true ∧
                    IsRed h (getNode h sib0).left = true then
                   match (getNode h sib0).left with
                   | none => none
                   | some sl =>
                       let h := setColor h sl .BLACK
                       let h := setColor h sib0 .RED
                       match RightRotate h sib0 with
                       | none => none
                       | some (h, newsib) => some (h, newsib)
                 else some (h, sib0)) with
          | none => none
          | some (h, sib) =>
            -- Case 2: right cousin is red
            if IsRed h (getNode h sib).right then
              match (getNode h sib).right with
              | none => none
              | some sr =>
                  let h := setColor h sr .BLACK
                  let h := setColor h sib ((getNode h parent).color)
                  let h := setColor h parent .BLACK
                  let change := parent = root
                  match LeftRotate h parent with
                  | none => none
                  | some (h, newtop) =>
                      some (h, if change then newtop else root)
            -- Case 4: both cousins black
            else
              -- assert(IsBlack(sib->_left))
              if ¬ IsBlack h (getNode h sib).left then none else
              if IsRed h (some parent) then
                let h := setColor h sib .RED
                let h := setColor h parent .BLACK
                some (h, root)
              else
                let h := setColor h sib .RED
                Remove_Adjust fuel h parent root
      else
        -- Right, symmetric
        match (if IsRed h ((getNode h parent).left) then
                 match (getNode h parent).left with
                 | none => none
                 | some s =>
                     let h := setColor h parent .RED
                     let h := setColor h s .BLACK
                     let change := parent = root
                     match RightRotate h parent with
                     | none => none
                     | some (h, newtop) =>
                         let root := if change then newtop else root
                         match (getNode h cur).parent with
                         | none => none
                         | some p2 => some (h, root, p2, (getNode h p2).left)
               else
                 some (h, root, parent, (getNode h parent).left)) with
      | none => none
      | some (h, root, parent, sib) =>
        match sib with
        | none => none
        | some sib0 =>
          -- Case 3: left cousin black, right cousin red → convert to case 2
          match (if IsBlack h (getNode h sib0).left = true ∧
                    IsRed h (getNode h sib0).right = true then
                   match (getNode h sib0).right with
                   | none => none
                   | some sr =>
                       let h := setColor h sr .BLACK
                       let h := setColor h sib0 .RED
                       match LeftRotate h sib0 with
                       | none => none
                       | some (h, newsib) => some (h, newsib)
                 else some (h, sib0)) with
          | none => none
          | some (h, sib) =>
            -- Case 2: left cousin is red
            if IsRed h (getNode h sib).left then
              match (getNode h sib).left with
              | none => none
              | some sl =>
                  let h := setColor h sl .BLACK
                  let h := setColor h sib ((getNode h parent).color)
                  let h := setColor h parent .BLACK
                  let change := parent = root
                  match RightRotate h parent with
                  | none => none
                  | some (h, newtop) =>
                      some (h, if change then newtop else root)
            else
              if ¬ IsBlack h (getNode h sib).right then none else
              if IsRed h (some parent) then
                let h := setColor h sib .RED
                let h := setColor h parent .BLACK
                some (h, root)
              else
                let h := setColor h sib .RED
                Remove_Adjust fuel h parent root

/-- The `while (minNode->_left)` loop of `Remove`, with fuel. -/
def MinLoop (h : Heap) : Nat → Nat → Option Nat
  | 0, m => match (getNode h m).left with
            | none => some m
            | some _ => none
  | fuel + 1, m =>
      match (getNode h m).left with
      | none => some m
      | some l => MinLoop h fuel l

/-- `Remove(root, value)`: result is `(new heap, new root pointer, removed
node pointer)`.  `none` models a failed `assert` or fuel exhaustion. -/
def Remove (h : Heap) (root : Ptr) (value : Int) : Option (Heap × Ptr × Ptr) :=
  match root with
  | none => some (h, none, none)
  | some r =>
      -- assert(root->IsRoot())
      if ¬ IsRoot h r then none else
      -- Find the node that contains the value
      match Search h (some r) value with
      | none => none
      | some none => some (h, some r, none)
      | some (some cur0) =>
        -- Two children: swap value with minimum of right subtree
        match (match (getNode h cur0).left, (getNode h cur0).right with
               | some _, some rc =>
                   match MinLoop h (h.length + 1) rc with
                   | none => none
                   | some m =>
                       let cv := (getNode h cur0).value
                       let mv := (getNode h m).value
                       let h := setValue h cur0 mv
                       let h := setValue h m cv
                       some (h, m)
               | _, _ => some (h, cur0)) with
        | none => none
        | some (h, cur) =>
          -- Adjust the tree
          match (if IsBlack h (some cur)
                 then Remove_Adjust (h.length + 1) h cur r
                 else some (h, r)) with
          | none => none
          | some (h, root) =>
            -- Find parent
            match (getNode h cur).parent with
            | none =>
                -- Remove root node: assert(cur == root)
                if cur ≠ root then none else
                if IsLeaf h cur then
                  let h := setLeft h cur none
                  let h := setRight h cur none
                  some (h, none, some cur)
                else
                  let that := match (getNode h cur).left with
                              | some l => l
                              | none => ((getNode h cur).right).getD 0
                  -- assert(that->IsLeaf())
                  if ¬ IsLeaf h that then none else
                  let h := setColor h that .BLACK
                  let h := setParent h that none
                  let h := setLeft h cur none
                  let h := setRight h cur none
                  some (h, some that, some cur)
            | some parent =>
                -- `child` is a reference into parent's corresponding slot
                let isLeft := (getNode h parent).left = some cur
                let h :=
                  if IsLeaf h cur then
                    if isLeft then setLeft h parent none else setRight h parent none
                  else
                    match (getNode h cur).left with
                    | some l =>
                        let h := if isLeft then setLeft h parent (some l)
                                 else setRight h parent (some l)
                        setParent h l ((getNode h cur).parent)
                    | none =>
                        match (getNode h cur).right with
                        | some rc =>
                            let h := if isLeft then setLeft h parent (some rc)
                                     else setRight h parent (some rc)
                            setParent h rc ((getNode h cur).parent)
                        | none => h
                let h := setParent h cur none
                let h := setLeft h cur none
                let h := setRight h cur none
                some (h, some root, some cur)

/-! ## Extraction of the pointer structure into a functional tree

A heap/root pair describes a tree; `toTree` extracts it (with enough fuel),
recording at each node its arena index.  The five structural invariants of
spec §3 are stated on the extraction. -/

/-- Functional binary tree extracted from the arena; each node remembers its
arena index. -/
inductive Tree where
  | nil
  | node (color : RBColor) (idx : Nat) (value : Int) (l : Tree) (r : Tree)
deriving DecidableEq, Repr

/-- Extract the tree rooted at a pointer.  `none` when the fuel runs out or a
pointer leaves the arena (cyclic or dangling structure). -/
def toTree (h : Heap) : Nat → Ptr → Option Tree
  | _, none => some .nil
  | 0, some _ => none
  | fuel + 1, some i =>
      if i < h.length then
        match toTree h fuel (getNode h i).left, toTree h fuel (getNode h i).right with
        | some l, some r => some (.node (getNode h i).color i (getNode h i).value l r)
        | _, _ => none
      else none

namespace Tree

/-- In-order sequence of values. -/
def inorder : Tree → List Int
  | .nil => []
  | .node _ _ v l r => inorder l ++ v :: inorder r

/-- In-order sequence of arena indices. -/
def indices : Tree → List Nat
  | .nil => []
  | .node _ i _ l r => indices l ++ i :: indices r

/-- Number of nodes. -/
def size : Tree → Nat
  | .nil => 0
  | .node _ _ _ l r => size l + size r + 1

/-- Height: number of nodes on the longest root-to-leaf path. -/
def height : Tree → Nat
  | .nil => 0
  | .node _ _ _ l r => max (height l) (height r) + 1

/-- Color of the top node (an absent child counts as black, spec §3 inv. 3). -/
def topColor : Tree → RBColor
  | .nil => .BLACK
  | .node c _ _ _ _ => c

/-- Spec §3 invariant 4: no red node has a red child. -/
def noRedRed : Tree → Bool
  | .nil => true
  | .node c _ _ l r =>
      (c = RBColor.BLACK ∨ (topColor l = RBColor.BLACK ∧ topColor r = RBColor.BLACK))
      && noRedRed l && noRedRed r

/-- Spec §3 invariant 5: black-height, `none` when inconsistent.  Counts the
black nodes on each path (absences contribute 0). -/
def blackHeight : Tree → Option Nat
  | .nil => some 0
  | .node c _ _ l r =>
      match blackHeight l, blackHeight r with
      | some a, some b =>
          if a = b then some (a + (if c = RBColor.BLACK then 1 else 0)) else none
      | _, _ => none

/-- Every value in the tree satisfies `p`. -/
def All (p : Int → Prop) : Tree → Prop
  | .nil => True
  | .node _ _ v l r => p v ∧ All p l ∧ All p r

def decAll (p : Int → Prop) [DecidablePred p] : ∀ t, Decidable (All p t)
  | .nil => isTrue trivial
  | .node _ _ v l r =>
      haveI := decAll p l
      haveI := decAll p r
      decidable_of_iff (p v ∧ All p l ∧ All p r) Iff.rfl

instance {p : Int → Prop} [DecidablePred p] (t : Tree) : Decidable (All p t) :=
  decAll p t

/-- Spec §3 invariant 1, BST order: left values ≤ node value ≤ right values;
strict when duplicates are disallowed. -/
def BST (AD : Bool) : Tree → Prop
  | .nil => True
  | .node _ _ v l r =>
      All (fun x => if AD then x ≤ v else x < v) l ∧
      All (fun x => if AD then v ≤ x else v < x) r ∧
      BST AD l ∧ BST AD r

def decBST (AD : Bool) : ∀ t, Decidable (BST AD t)
  | .nil => isTrue trivial
  | .node _ _ v l r =>
      haveI := decBST AD l
      haveI := decBST AD r
      decidable_of_iff (All (fun x => if AD then x ≤ v else x < v) l ∧
        All (fun x => if AD then v ≤ x else v < x) r ∧ BST AD l ∧ BST AD r) Iff.rfl

instance {AD : Bool} (t : Tree) : Decidable (BST AD t) := decBST AD t

end Tree

/-- Spec §3 invariant 2, referential symmetry: every extracted node's stored
parent pointer equals the index of the node above it (`none` at the root). -/
def parentsOK (h : Heap) : Ptr → Tree → Bool
  | _, .nil => true
  | up, .node _ i _ l r =>
      ((getNode h i).parent = up) && parentsOK h (some i) l && parentsOK h (some i) r

/-- Well-formed pointer structure: the extraction succeeds, no node is reached
twice (the heap region reachable from `root` is a tree, not a DAG or cycle),
and the parent back-references are coherent. -/
def WFH (h : Heap) (root : Ptr) : Prop :=
  ∃ t, toTree h (h.length + 1) root = some t ∧
    t.indices.Nodup ∧ parentsOK h none t = true

/-- All five structural invariants of spec §3 for the extracted tree
(inv. 3, "absent children are black", is built into `topColor`/`blackHeight`). -/
def RBInv (AD : Bool) (t : Tree) : Prop :=
  Tree.BST AD t ∧ t.noRedRed = true ∧ (t.blackHeight).isSome ∧
    t.topColor = RBColor.BLACK

/-- A heap/root pair is a valid red-black tree: well-formed pointer structure
plus the five structural invariants. -/
def ValidRB (AD : Bool) (h : Heap) (root : Ptr) : Prop :=
  ∃ t, toTree h (h.length + 1) root = some t ∧
    t.indices.Nodup ∧ parentsOK h none t = true ∧ RBInv AD t

/-! ### Concrete fixtures (the trees built by `test_RBTree.cpp`), used to
witness the theorems below on explicit inputs. -/

/-- The five-node tree of the C++ `RotateTest` fixture
(indices: 0 ↦ 2, 1 ↦ 1, 2 ↦ 4, 3 ↦ 3, 4 ↦ 5, all black). -/
def rotFixture : Heap := [
  ⟨.BLACK, 2, none, some 1, some 2⟩,
  ⟨.BLACK, 1, some 0, none, none⟩,
  ⟨.BLACK, 4, some 0, some 3, some 4⟩,
  ⟨.BLACK, 3, some 2, none, none⟩,
  ⟨.BLACK, 5, some 2, none, none⟩]

/-- The seven-node tree of the C++ `InsertTest` fixture
(indices: 0 ↦ 11B, 1 ↦ 2R, 2 ↦ 14B, 3 ↦ 1B, 4 ↦ 7B, 5 ↦ 15R, 6 ↦ 8R). -/
def insFixture : Heap := [
  ⟨.BLACK, 11, none, some 1, some 2⟩,
  ⟨.RED, 2, some 0, some 3, some 4⟩,
  ⟨.BLACK, 14, some 0, none, some 5⟩,
  ⟨.BLACK, 1, some 1, none, none⟩,
  ⟨.BLACK, 7, some 1, none, some 6⟩,
  ⟨.RED, 15, some 2, none, none⟩,
  ⟨.RED, 8, some 4, none, none⟩]

/-- The nine-node tree of the C++ `RemoveTest` fixture
(indices: 0 ↦ 10B, 1 ↦ 5B, 2 ↦ 15B, 3 ↦ 3B, 4 ↦ 7R, 5 ↦ 11B, 6 ↦ 17B,
7 ↦ 6B, 8 ↦ 8B). -/
def remFixture : Heap := [
  ⟨.BLACK, 10, none, some 1, some 2⟩,
  ⟨.BLACK, 5, some 0, some 3, some 4⟩,
  ⟨.BLACK, 15, some 0, some 5, some 6⟩,
  ⟨.BLACK, 3, some 1, none, none⟩,
  ⟨.RED, 7, some 1, some 7, some 8⟩,
  ⟨.BLACK, 11, some 2, none, none⟩,
  ⟨.BLACK, 17, some 2, none, none⟩,
  ⟨.BLACK, 6, some 4, none, none⟩,
  ⟨.BLACK, 8, some 4, none, none⟩]

/-- The pure descent that `Search` performs, as a relation from the starting
pointer to the result: stop on equality, go left when the value is less,
right when greater, and end with `none` on reaching an absent child. -/
inductive DescendsTo (h : Heap) (value : Int) : Ptr → Ptr → Prop where
  | nil : DescendsTo h value none none
  | stop (i : Nat) : value = (getNode h i).value →
      DescendsTo h value (some i) (some i)
  | left (i : Nat) (res : Ptr) : value ≠ (getNode h i).value →
      value < (getNode h i).value →
      DescendsTo h value ((getNode h i).left) res →
      DescendsTo h value (some i) res
  | right (i : Nat) (res : Ptr) : value ≠ (getNode h i).value →
      ¬ value < (getNode h i).value →
      DescendsTo h value ((getNode h i).right) res →
      DescendsTo h value (some i) res

/-! ## Basic lemmas about the arena -/

@[simp] theorem length_setNode (h : Heap) (i : Nat) (n : RBTreeNode) :
    (setNode h i n).length = h.length := by
  simp [setNode]

@[simp] theorem length_setColor (h : Heap) (i : Nat) (c : RBColor) :
    (setColor h i c).length = h.length := by simp [setColor]

@[simp] theorem length_setValue (h : Heap) (i : Nat) (v : Int) :
    (setValue h i v).length = h.length := by simp [setValue]

@[simp] theorem length_setParent (h : Heap) (i : Nat) (q : Ptr) :
    (setParent h i q).length = h.length := by simp [setParent]

@[simp] theorem length_setLeft (h : Heap) (i : Nat) (q : Ptr) :
    (setLeft h i q).length = h.length := by simp [setLeft]

@[simp] theorem length_setRight (h : Heap) (i : Nat) (q : Ptr) :
    (setRight h i q).length = h.length := by simp [setRight]

theorem getNode_setNode_self (h : Heap) (i : Nat) (n : RBTreeNode)
    (hi : i < h.length) : getNode (setNode h i n) i = n := by
  simp [getNode, setNode, List.getD, List.getElem?_set_self, hi]

theorem getNode_setNode_ne (h : Heap) {i j : Nat} (n : RBTreeNode)
    (hij : i ≠ j) : getNode (setNode h i n) j = getNode h j := by
  simp [getNode, setNode, List.getD, List.getElem?_set_ne hij]

theorem getNode_setParent_self (h : Heap) {i : Nat} (q : Ptr) (hi : i < h.length) :
    getNode (setParent h i q) i = { getNode h i with parent := q } :=
  getNode_setNode_self h i _ hi

theorem getNode_setParent_ne (h : Heap) {i j : Nat} (q : Ptr) (hij : i ≠ j) :
    getNode (setParent h i q) j = getNode h j :=
  getNode_setNode_ne h _ hij

theorem getNode_setLeft_self (h : Heap) {i : Nat} (q : Ptr) (hi : i < h.length) :
    getNode (setLeft h i q) i = { getNode h i with left := q } :=
  getNode_setNode_self h i _ hi

theorem getNode_setLeft_ne (h : Heap) {i j : Nat} (q : Ptr) (hij : i ≠ j) :
    getNode (setLeft h i q) j = getNode h j :=
  getNode_setNode_ne h _ hij

theorem getNode_setRight_self (h : Heap) {i : Nat} (q : Ptr) (hi : i < h.length) :
    getNode (setRight h i q) i = { getNode h i with right := q } :=
  getNode_setNode_self h i _ hi

theorem getNode_setRight_ne (h : Heap) {i j : Nat} (q : Ptr) (hij : i ≠ j) :
    getNode (setRight h i q) j = getNode h j :=
  getNode_setNode_ne h _ hij

theorem getNode_setColor_self (h : Heap) {i : Nat} (c : RBColor) (hi : i < h.length) :
    getNode (setColor h i c) i = { getNode h i with color := c } :=
  getNode_setNode_self h i _ hi

theorem getNode_setColor_ne (h : Heap) {i j : Nat} (c : RBColor) (hij : i ≠ j) :
    getNode (setColor h i c) j = getNode h j :=
  getNode_setNode_ne h _ hij

theorem getNode_setValue_self (h : Heap) {i : Nat} (v : Int) (hi : i < h.length) :
    getNode (setValue h i v) i = { getNode h i with value := v } :=
  getNode_setNode_self h i _ hi

theorem getNode_setValue_ne (h : Heap) {i j : Nat} (v : Int) (hij : i ≠ j) :
    getNode (setValue h i v) j = getNode h j :=
  getNode_setNode_ne h _ hij

theorem getNode_out (h : Heap) {i : Nat} (hi : ¬ i < h.length) :
    getNode h i = default := by
  simp [getNode, List.getD, List.getElem?_eq_none (Nat.le_of_not_lt hi)]

theorem setNode_out (h : Heap) {i : Nat} (hi : ¬ i < h.length) (n : RBTreeNode) :
    setNode h i n = h := by
  simp [setNode, List.set_eq_of_length_le (Nat.le_of_not_lt hi)]

/-- Extensionality for heaps: same length and same nodes everywhere. -/
theorem Heap.ext {h h' : Heap} (hlen : h.length = h'.length)
    (hnode : ∀ i, getNode h i = getNode h' i) : h = h' := by
  apply List.ext_getElem?
  intro j
  by_cases hj : j < h.length
  · have hj' : j < h'.length := hlen ▸ hj
    have := hnode j
    rw [getNode, getNode, List.getD, List.getD, List.get?_eq_getElem?,
      List.get?_eq_getElem?, List.getElem?_eq_getElem hj,
      List.getElem?_eq_getElem hj'] at this
    simp only [Option.getD_some] at this
    simp [List.getElem?_eq_getElem, hj, hj', this]
  · have hj' : ¬ j < h'.length := fun hc => hj (hlen ▸ hc)
    simp [List.getElem?_eq_none (Nat.le_of_not_lt hj),
      List.getElem?_eq_none (Nat.le_of_not_lt hj')]

/-! ## Lemmas about `toTree` -/

theorem toTree_none (h : Heap) (f : Nat) : toTree h f none = some Tree.nil := by
  cases f <;> rfl

theorem toTree_some_succ (h : Heap) (f : Nat) (i : Nat) :
    toTree h (f + 1) (some i) =
      (if i < h.length then
        match toTree h f (getNode h i).left, toTree h f (getNode h i).right with
        | some l, some r => some (.node (getNode h i).color i (getNode h i).value l r)
        | _, _ => none
      else none) := rfl

/-- Fuel monotonicity. -/
theorem toTree_mono (h : Heap) :
    ∀ {f f' : Nat} {p : Ptr} {t : Tree}, f ≤ f' →
      toTree h f p = some t → toTree h f' p = some t := by
  intro f
  induction f with
  | zero =>
      intro f' p t _ hp
      cases p with
      | none => cases hp; exact toTree_none _ _
      | some i => simp [toTree] at hp
  | succ f ih =>
      intro f' p t hle hp
      cases p with
      | none => cases hp; exact toTree_none _ _
      | some i =>
          obtain ⟨f'', rfl⟩ : ∃ f'', f' = f'' + 1 :=
            ⟨f' - 1, by omega⟩
          rw [toTree_some_succ] at hp ⊢
          by_cases hi : i < h.length
          · simp only [hi, if_true] at hp ⊢
            cases hl : toTree h f (getNode h i).left with
            | none => rw [hl] at hp; simp at hp
            | some l =>
                cases hr : toTree h f (getNode h i).right with
                | none => rw [hl, hr] at hp; simp at hp
                | some r =>
                    rw [hl, hr] at hp
                    rw [ih (by omega) hl, ih (by omega) hr]
                    exact hp
          · simp [hi] at hp


/-- The root pointer of an extracted (non-nil) tree is its recorded index. -/
theorem toTree_some_elim {h : Heap} {f : Nat} {i : Nat} {t : Tree}
    (ht : toTree h f (some i) = some t) :
    ∃ f' l r, f = f' + 1 ∧ i < h.length ∧
      toTree h f' (getNode h i).left = some l ∧
      toTree h f' (getNode h i).right = some r ∧
      t = .node (getNode h i).color i (getNode h i).value l r := by
  cases f with
  | zero => simp [toTree] at ht
  | succ f =>
      rw [toTree_some_succ] at ht
      by_cases hi : i < h.length
      · simp only [hi, if_true] at ht
        cases hl : toTree h f (getNode h i).left with
        | none => rw [hl] at ht; simp at ht
        | some l =>
            cases hr : toTree h f (getNode h i).right with
            | none => rw [hl, hr] at ht; simp at ht
            | some r =>
                rw [hl, hr] at ht
                exact ⟨f, l, r, rfl, hi, hl, hr, (Option.some_injective _ ht).symm⟩
      · simp [hi] at ht

/-- Every extracted index is in range. -/
theorem toTree_indices_lt (h : Heap) :
    ∀ {f : Nat} {p : Ptr} {t : Tree}, toTree h f p = some t →
      ∀ i ∈ t.indices, i < h.length := by
  intro f
  induction f with
  | zero =>
      intro p t hp i hi
      cases p with
      | none => cases hp; simp [Tree.indices] at hi
      | some j => simp [toTree] at hp
  | succ f ih =>
      intro p t hp i hi
      cases p with
      | none => cases hp; simp [Tree.indices] at hi
      | some j =>
          obtain ⟨f', l, r, hf, hj, hl, hr, rfl⟩ := toTree_some_elim hp
          cases hf
          simp only [Tree.indices, List.mem_append, List.mem_cons] at hi
          rcases hi with hi | hi | hi
          · exact ih hl i hi
          · exact hi ▸ hj
          · exact ih hr i hi

/-- Extraction needs only as much fuel as the height of the result. -/
theorem toTree_min_fuel (h : Heap) :
    ∀ {f : Nat} {p : Ptr} {t : Tree}, toTree h f p = some t →
      ∀ f', t.height ≤ f' → toTree h f' p = some t := by
  intro f
  induction f with
  | zero =>
      intro p t hp f' _
      cases p with
      | none => cases hp; exact toTree_none _ _
      | some j => simp [toTree] at hp
  | succ f ih =>
      intro p t hp f' hf'
      cases p with
      | none => cases hp; exact toTree_none _ _
      | some j =>
          obtain ⟨f'', l, r, hf, hj, hl, hr, rfl⟩ := toTree_some_elim hp
          cases hf
          simp only [Tree.height] at hf'
          obtain ⟨k, rfl⟩ : ∃ k, f' = k + 1 := ⟨f' - 1, by omega⟩
          rw [toTree_some_succ]
          simp only [hj, if_true]
          rw [ih hl k (by omega), ih hr k (by omega)]

/-- Frame rule: extraction only looks at the `left`, `right`, `color` and
`value` fields of the nodes it reaches, so a heap that agrees there (with the
reached indices still in range) extracts the same tree. -/
theorem toTree_frame (h h' : Heap) :
    ∀ {f : Nat} {p : Ptr} {t : Tree}, toTree h f p = some t →
      (∀ i ∈ t.indices, i < h'.length ∧
        (getNode h' i).left = (getNode h i).left ∧
        (getNode h' i).right = (getNode h i).right ∧
        (getNode h' i).color = (getNode h i).color ∧
        (getNode h' i).value = (getNode h i).value) →
      toTree h' f p = some t := by
  intro f
  induction f with
  | zero =>
      intro p t hp _
      cases p with
      | none => cases hp; exact toTree_none _ _
      | some j => simp [toTree] at hp
  | succ f ih =>
      intro p t hp hagree
      cases p with
      | none => cases hp; exact toTree_none _ _
      | some j =>
          obtain ⟨f', l, r, hf, hj, hl, hr, rfl⟩ := toTree_some_elim hp
          cases hf
          have hjmem : j ∈ (Tree.node (getNode h j).color j (getNode h j).value l r).indices := by
            simp [Tree.indices]
          obtain ⟨hj', hlf, hrf, hcf, hvf⟩ := hagree j hjmem
          rw [toTree_some_succ]
          simp only [hj', if_true]
          have hL : toTree h' f (getNode h' j).left = some l := by
            rw [hlf]
            exact ih hl (fun i hi => hagree i (by simp [Tree.indices]; tauto))
          have hR : toTree h' f (getNode h' j).right = some r := by
            rw [hrf]
            exact ih hr (fun i hi => hagree i (by simp [Tree.indices]; tauto))
          rw [hL, hR, hcf, hvf]

/-- Pointwise description of `LeftRotate` under the aliasing-freedom that a
well-formed tree guarantees. -/
theorem LeftRotate_spec (h : Heap) {s d : Nat}
    (hd : (getNode h s).right = some d)
    (hs : s < h.length) (hdl : d < h.length) (hsd : s ≠ d)
    (hm : ∀ m, (getNode h d).left = some m → m < h.length ∧ m ≠ s ∧ m ≠ d)
    (hp : ∀ p, (getNode h s).parent = some p →
      p < h.length ∧ p ≠ s ∧ p ≠ d ∧ ∀ m, (getNode h d).left = some m → p ≠ m) :
    ∃ h', LeftRotate h s = some (h', d) ∧ h'.length = h.length ∧
      getNode h' s = { getNode h s with parent := some d, right := (getNode h d).left } ∧
      getNode h' d = { getNode h d with left := some s, parent := (getNode h s).parent } ∧
      (∀ m, (getNode h d).left = some m →
        getNode h' m = { getNode h m with parent := some s }) ∧
      (∀ p, (getNode h s).parent = some p →
        getNode h' p = (if (getNode h p).left = some s
          then { getNode h p with left := some d }
          else { getNode h p with right := some d })) ∧
      (∀ j, j ≠ s → j ≠ d → (getNode h d).left ≠ some j →
        (getNode h s).parent ≠ some j → getNode h' j = getNode h j) := by
  have hds : d ≠ s := Ne.symm hsd
  rw [LeftRotate, hd]
  rcases hml : (getNode h d).left with _ | m
  case none =>
    rcases hppe : (getNode h s).parent with _ | p
    case none =>
      simp only [hppe, hml, getNode_setParent_self, getNode_setParent_ne,
        getNode_setLeft_self, getNode_setLeft_ne, getNode_setRight_self,
        getNode_setRight_ne, length_setParent, length_setLeft, length_setRight,
        hs, hdl, hsd, hds, ne_eq, not_false_iff]
      refine ⟨_, rfl, ?_, ?_, ?_, ?_, ?_, ?_⟩
      · simp
      · simp [getNode_setParent_self, getNode_setParent_ne, getNode_setLeft_self,
            getNode_setLeft_ne, getNode_setRight_self, getNode_setRight_ne,
            length_setParent, length_setLeft, length_setRight, hs, hdl, hsd, hds]
      · simp [getNode_setParent_self, getNode_setParent_ne, getNode_setLeft_self,
            getNode_setLeft_ne, getNode_setRight_self, getNode_setRight_ne,
            length_setParent, length_setLeft, length_setRight, hs, hdl, hsd, hds]
      · simp
      · simp
      · intro j hjs hjd hjm hjp
        have h1 : s ≠ j := Ne.symm hjs
        have h2 : d ≠ j := Ne.symm hjd
        simp [getNode_setParent_ne, getNode_setLeft_ne, getNode_setRight_ne, h1, h2]
    case some =>
      obtain ⟨hplen, hpns, hpnd, _⟩ := hp p hppe
      have hpsn : s ≠ p := Ne.symm hpns
      have hpdn : d ≠ p := Ne.symm hpnd
      simp only [hppe, hml, getNode_setParent_self, getNode_setParent_ne,
        getNode_setLeft_self, getNode_setLeft_ne, getNode_setRight_self,
        getNode_setRight_ne, length_setParent, length_setLeft, length_setRight,
        hs, hdl, hsd, hds, hpns, hpnd, hpsn, hpdn, ne_eq, not_false_iff]
      by_cases hpl : (getNode h p).left = some s
      · rw [if_pos hpl]
        refine ⟨_, rfl, ?_, ?_, ?_, ?_, ?_, ?_⟩
        · simp
        · simp [getNode_setParent_self, getNode_setParent_ne, getNode_setLeft_self,
              getNode_setLeft_ne, getNode_setRight_self, getNode_setRight_ne,
              length_setParent, length_setLeft, length_setRight, hs, hdl, hsd, hds, hpns, hpnd, hpsn, hpdn, hplen, hpl]
        · simp [getNode_setParent_self, getNode_setParent_ne, getNode_setLeft_self,
              getNode_setLeft_ne, getNode_setRight_self, getNode_setRight_ne,
              length_setParent, length_setLeft, length_setRight, hs, hdl, hsd, hds, hpns, hpnd, hpsn, hpdn, hplen, hpl]
        · simp
        · intro p' hp'
          injection hp' with hpe
          subst hpe
          simp [getNode_setParent_self, getNode_setParent_ne, getNode_setLeft_self,
              getNode_setLeft_ne, getNode_setRight_self, getNode_setRight_ne,
              length_setParent, length_setLeft, length_setRight, hs, hdl, hsd, hds, hpns, hpnd, hpsn, hpdn, hplen, hpl]
        · intro j hjs hjd hjm hjp
          have h1 : s ≠ j := Ne.symm hjs
          have h2 : d ≠ j := Ne.symm hjd
          have h4 : p ≠ j := fun hc => hjp (by rw [hc])
          simp [getNode_setParent_ne, getNode_setLeft_ne, getNode_setRight_ne, h1, h2, h4]
      · rw [if_neg hpl]
        refine ⟨_, rfl, ?_, ?_, ?_, ?_, ?_, ?_⟩
        · simp
        · simp [getNode_setParent_self, getNode_setParent_ne, getNode_setLeft_self,
              getNode_setLeft_ne, getNode_setRight_self, getNode_setRight_ne,
              length_setParent, length_setLeft, length_setRight, hs, hdl, hsd, hds, hpns, hpnd, hpsn, hpdn, hplen, hpl]
        · simp [getNode_setParent_self, getNode_setParent_ne, getNode_setLeft_self,
              getNode_setLeft_ne, getNode_setRight_self, getNode_setRight_ne,
              length_setParent, length_setLeft, length_setRight, hs, hdl, hsd, hds, hpns, hpnd, hpsn, hpdn, hplen, hpl]
        · simp
        · intro p' hp'
          injection hp' with hpe
          subst hpe
          simp [getNode_setParent_self, getNode_setParent_ne, getNode_setLeft_self,
              getNode_setLeft_ne, getNode_setRight_self, getNode_setRight_ne,
              length_setParent, length_setLeft, length_setRight, hs, hdl, hsd, hds, hpns, hpnd, hpsn, hpdn, hplen, hpl]
        · intro j hjs hjd hjm hjp
          have h1 : s ≠ j := Ne.symm hjs
          have h2 : d ≠ j := Ne.symm hjd
          have h4 : p ≠ j := fun hc => hjp (by rw [hc])
          simp [getNode_setParent_ne, getNode_setLeft_ne, getNode_setRight_ne, h1, h2, h4]
  case some =>
    obtain ⟨hmlen, hmns, hmnd⟩ := hm m hml
    have hmsn : s ≠ m := Ne.symm hmns
    have hmdn : d ≠ m := Ne.symm hmnd
    rcases hppe : (getNode h s).parent with _ | p
    case none =>
      simp only [hppe, hml, getNode_setParent_self, getNode_setParent_ne,
        getNode_setLeft_self, getNode_setLeft_ne, getNode_setRight_self,
        getNode_setRight_ne, length_setParent, length_setLeft, length_setRight,
        hs, hdl, hsd, hds, hmns, hmnd, hmsn, hmdn, ne_eq, not_false_iff]
      refine ⟨_, rfl, ?_, ?_, ?_, ?_, ?_, ?_⟩
      · simp
      · simp [getNode_setParent_self, getNode_setParent_ne, getNode_setLeft_self,
            getNode_setLeft_ne, getNode_setRight_self, getNode_setRight_ne,
            length_setParent, length_setLeft, length_setRight, hs, hdl, hsd, hds, hmns, hmnd, hmsn, hmdn, hmlen]
      · simp [getNode_setParent_self, getNode_setParent_ne, getNode_setLeft_self,
            getNode_setLeft_ne, getNode_setRight_self, getNode_setRight_ne,
            length_setParent, length_setLeft, length_setRight, hs, hdl, hsd, hds, hmns, hmnd, hmsn, hmdn, hmlen]
      · intro m' hm'
        injection hm' with hme
        subst hme
        simp [getNode_setParent_self, getNode_setParent_ne, getNode_setLeft_self,
            getNode_setLeft_ne, getNode_setRight_self, getNode_setRight_ne,
            length_setParent, length_setLeft, length_setRight, hs, hdl, hsd, hds, hmns, hmnd, hmsn, hmdn, hmlen]
      · simp
      · intro j hjs hjd hjm hjp
        have h1 : s ≠ j := Ne.symm hjs
        have h2 : d ≠ j := Ne.symm hjd
        have h3 : m ≠ j := fun hc => hjm (by rw [hc])
        simp [getNode_setParent_ne, getNode_setLeft_ne, getNode_setRight_ne, h1, h2, h3]
    case some =>
      obtain ⟨hplen, hpns, hpnd, hpnm'⟩ := hp p hppe
      have hpnm : p ≠ m := hpnm' m hml
      have hpsn : s ≠ p := Ne.symm hpns
      have hpdn : d ≠ p := Ne.symm hpnd
      have hmpn : m ≠ p := Ne.symm hpnm
      simp only [hppe, hml, getNode_setParent_self, getNode_setParent_ne,
        getNode_setLeft_self, getNode_setLeft_ne, getNode_setRight_self,
        getNode_setRight_ne, length_setParent, length_setLeft, length_setRight,
        hs, hdl, hsd, hds, hmns, hmnd, hmsn, hmdn, hpns, hpnd, hpsn, hpdn, hpnm, hmpn, ne_eq, not_false_iff]
      by_cases hpl : (getNode h p).left = some s
      · rw [if_pos hpl]
        refine ⟨_, rfl, ?_, ?_, ?_, ?_, ?_, ?_⟩
        · simp
        · simp [getNode_setParent_self, getNode_setParent_ne, getNode_setLeft_self,
              getNode_setLeft_ne, getNode_setRight_self, getNode_setRight_ne,
              length_setParent, length_setLeft, length_setRight, hs, hdl, hsd, hds, hmns, hmnd, hmsn, hmdn, hmlen, hpns, hpnd, hpsn, hpdn, hplen, hpl, hpnm, hmpn]
        · simp [getNode_setParent_self, getNode_setParent_ne, getNode_setLeft_self,
              getNode_setLeft_ne, getNode_setRight_self, getNode_setRight_ne,
              length_setParent, length_setLeft, length_setRight, hs, hdl, hsd, hds, hmns, hmnd, hmsn, hmdn, hmlen, hpns, hpnd, hpsn, hpdn, hplen, hpl, hpnm, hmpn]
        · intro m' hm'
          injection hm' with hme
          subst hme
          simp [getNode_setParent_self, getNode_setParent_ne, getNode_setLeft_self,
              getNode_setLeft_ne, getNode_setRight_self, getNode_setRight_ne,
              length_setParent, length_setLeft, length_setRight, hs, hdl, hsd, hds, hmns, hmnd, hmsn, hmdn, hmlen, hpns, hpnd, hpsn, hpdn, hplen, hpl, hpnm, hmpn]
        · intro p' hp'
          injection hp' with hpe
          subst hpe
          simp [getNode_setParent_self, getNode_setParent_ne, getNode_setLeft_self,
              getNode_setLeft_ne, getNode_setRight_self, getNode_setRight_ne,
              length_setParent, length_setLeft, length_setRight, hs, hdl, hsd, hds, hmns, hmnd, hmsn, hmdn, hmlen, hpns, hpnd, hpsn, hpdn, hplen, hpl, hpnm, hmpn]
        · intro j hjs hjd hjm hjp
          have h1 : s ≠ j := Ne.symm hjs
          have h2 : d ≠ j := Ne.symm hjd
          have h3 : m ≠ j := fun hc => hjm (by rw [hc])
          have h4 : p ≠ j := fun hc => hjp (by rw [hc])
          simp [getNode_setParent_ne, getNode_setLeft_ne, getNode_setRight_ne, h1, h2, h3, h4]
      · rw [if_neg hpl]
        refine ⟨_, rfl, ?_, ?_, ?_, ?_, ?_, ?_⟩
        · simp
        · simp [getNode_setParent_self, getNode_setParent_ne, getNode_setLeft_self,
              getNode_setLeft_ne, getNode_setRight_self, getNode_setRight_ne,
              length_setParent, length_setLeft, length_setRight, hs, hdl, hsd, hds, hmns, hmnd, hmsn, hmdn, hmlen, hpns, hpnd, hpsn, hpdn, hplen, hpl, hpnm, hmpn]
        · simp [getNode_setParent_self, getNode_setParent_ne, getNode_setLeft_self,
              getNode_setLeft_ne, getNode_setRight_self, getNode_setRight_ne,
              length_setParent, length_setLeft, length_setRight, hs, hdl, hsd, hds, hmns, hmnd, hmsn, hmdn, hmlen, hpns, hpnd, hpsn, hpdn, hplen, hpl, hpnm, hmpn]
        · intro m' hm'
          injection hm' with hme
          subst hme
          simp [getNode_setParent_self, getNode_setParent_ne, getNode_setLeft_self,
              getNode_setLeft_ne, getNode_setRight_self, getNode_setRight_ne,
              length_setParent, length_setLeft, length_setRight, hs, hdl, hsd, hds, hmns, hmnd, hmsn, hmdn, hmlen, hpns, hpnd, hpsn, hpdn, hplen, hpl, hpnm, hmpn]
        · intro p' hp'
          injection hp' with hpe
          subst hpe
          simp [getNode_setParent_self, getNode_setParent_ne, getNode_setLeft_self,
              getNode_setLeft_ne, getNode_setRight_self, getNode_setRight_ne,
              length_setParent, length_setLeft, length_setRight, hs, hdl, hsd, hds, hmns, hmnd, hmsn, hmdn, hmlen, hpns, hpnd, hpsn, hpdn, hplen, hpl, hpnm, hmpn]
        · intro j hjs hjd hjm hjp
          have h1 : s ≠ j := Ne.symm hjs
          have h2 : d ≠ j := Ne.symm hjd
          have h3 : m ≠ j := fun hc => hjm (by rw [hc])
          have h4 : p ≠ j := fun hc => hjp (by rw [hc])
          simp [getNode_setParent_ne, getNode_setLeft_ne, getNode_setRight_ne, h1, h2, h3, h4]


/-- Pointwise description of `RightRotate`, the mirror image. -/
theorem RightRotate_spec (h : Heap) {s d : Nat}
    (hd : (getNode h s).left = some d)
    (hs : s < h.length) (hdl : d < h.length) (hsd : s ≠ d)
    (hm : ∀ m, (getNode h d).right = some m → m < h.length ∧ m ≠ s ∧ m ≠ d)
    (hp : ∀ p, (getNode h s).parent = some p →
      p < h.length ∧ p ≠ s ∧ p ≠ d ∧ ∀ m, (getNode h d).right = some m → p ≠ m) :
    ∃ h', RightRotate h s = some (h', d) ∧ h'.length = h.length ∧
      getNode h' s = { getNode h s with parent := some d, left := (getNode h d).right } ∧
      getNode h' d = { getNode h d with right := some s, parent := (getNode h s).parent } ∧
      (∀ m, (getNode h d).right = some m →
        getNode h' m = { getNode h m with parent := some s }) ∧
      (∀ p, (getNode h s).parent = some p →
        getNode h' p = (if (getNode h p).left = some s
          then { getNode h p with left := some d }
          else { getNode h p with right := some d })) ∧
      (∀ j, j ≠ s → j ≠ d → (getNode h d).right ≠ some j →
        (getNode h s).parent ≠ some j → getNode h' j = getNode h j) := by
  have hds : d ≠ s := Ne.symm hsd
  rw [RightRotate, hd]
  rcases hml : (getNode h d).right with _ | m
  case none =>
    rcases hppe : (getNode h s).parent with _ | p
    case none =>
      simp only [hppe, hml, getNode_setParent_self, getNode_setParent_ne,
        getNode_setLeft_self, getNode_setLeft_ne, getNode_setRight_self,
        getNode_setRight_ne, length_setParent, length_setLeft, length_setRight,
        hs, hdl, hsd, hds, ne_eq, not_false_iff]
      refine ⟨_, rfl, ?_, ?_, ?_, ?_, ?_, ?_⟩
      · simp
      · simp [getNode_setParent_self, getNode_setParent_ne, getNode_setLeft_self,
            getNode_setLeft_ne, getNode_setRight_self, getNode_setRight_ne,
            length_setParent, length_setLeft, length_setRight, hs, hdl, hsd, hds]
      · simp [getNode_setParent_self, getNode_setParent_ne, getNode_setLeft_self,
            getNode_setLeft_ne, getNode_setRight_self, getNode_setRight_ne,
            length_setParent, length_setLeft, length_setRight, hs, hdl, hsd, hds]
      · simp
      · simp
      · intro j hjs hjd hjm hjp
        have h1 : s ≠ j := Ne.symm hjs
        have h2 : d ≠ j := Ne.symm hjd
        simp [getNode_setParent_ne, getNode_setLeft_ne, getNode_setRight_ne, h1, h2]
    case some =>
      obtain ⟨hplen, hpns, hpnd, _⟩ := hp p hppe
      have hpsn : s ≠ p := Ne.symm hpns
      have hpdn : d ≠ p := Ne.symm hpnd
      simp only [hppe, hml, getNode_setParent_self, getNode_setParent_ne,
        getNode_setLeft_self, getNode_setLeft_ne, getNode_setRight_self,
        getNode_setRight_ne, length_setParent, length_setLeft, length_setRight,
        hs, hdl, hsd, hds, hpns, hpnd, hpsn, hpdn, ne_eq, not_false_iff]
      by_cases hpl : (getNode h p).left = some s
      · rw [if_pos hpl]
        refine ⟨_, rfl, ?_, ?_, ?_, ?_, ?_, ?_⟩
        · simp
        · simp [getNode_setParent_self, getNode_setParent_ne, getNode_setLeft_self,
              getNode_setLeft_ne, getNode_setRight_self, getNode_setRight_ne,
              length_setParent, length_setLeft, length_setRight, hs, hdl, hsd, hds, hpns, hpnd, hpsn, hpdn, hplen, hpl]
        · simp [getNode_setParent_self, getNode_setParent_ne, getNode_setLeft_self,
              getNode_setLeft_ne, getNode_setRight_self, getNode_setRight_ne,
              length_setParent, length_setLeft, length_setRight, hs, hdl, hsd, hds, hpns, hpnd, hpsn, hpdn, hplen, hpl]
        · simp
        · intro p' hp'
          injection hp' with hpe
          subst hpe
          simp [getNode_setParent_self, getNode_setParent_ne, getNode_setLeft_self,
              getNode_setLeft_ne, getNode_setRight_self, getNode_setRight_ne,
              length_setParent, length_setLeft, length_setRight, hs, hdl, hsd, hds, hpns, hpnd, hpsn, hpdn, hplen, hpl]
        · intro j hjs hjd hjm hjp
          have h1 : s ≠ j := Ne.symm hjs
          have h2 : d ≠ j := Ne.symm hjd
          have h4 : p ≠ j := fun hc => hjp (by rw [hc])
          simp [getNode_setParent_ne, getNode_setLeft_ne, getNode_setRight_ne, h1, h2, h4]
      · rw [if_neg hpl]
        refine ⟨_, rfl, ?_, ?_, ?_, ?_, ?_, ?_⟩
        · simp
        · simp [getNode_setParent_self, getNode_setParent_ne, getNode_setLeft_self,
              getNode_setLeft_ne, getNode_setRight_self, getNode_setRight_ne,
              length_setParent, length_setLeft, length_setRight, hs, hdl, hsd, hds, hpns, hpnd, hpsn, hpdn, hplen, hpl]
        · simp [getNode_setParent_self, getNode_setParent_ne, getNode_setLeft_self,
              getNode_setLeft_ne, getNode_setRight_self, getNode_setRight_ne,
              length_setParent, length_setLeft, length_setRight, hs, hdl, hsd, hds, hpns, hpnd, hpsn, hpdn, hplen, hpl]
        · simp
        · intro p' hp'
          injection hp' with hpe
          subst hpe
          simp [getNode_setParent_self, getNode_setParent_ne, getNode_setLeft_self,
              getNode_setLeft_ne, getNode_setRight_self, getNode_setRight_ne,
              length_setParent, length_setLeft, length_setRight, hs, hdl, hsd, hds, hpns, hpnd, hpsn, hpdn, hplen, hpl]
        · intro j hjs hjd hjm hjp
          have h1 : s ≠ j := Ne.symm hjs
          have h2 : d ≠ j := Ne.symm hjd
          have h4 : p ≠ j := fun hc => hjp (by rw [hc])
          simp [getNode_setParent_ne, getNode_setLeft_ne, getNode_setRight_ne, h1, h2, h4]
  case some =>
    obtain ⟨hmlen, hmns, hmnd⟩ := hm m hml
    have hmsn : s ≠ m := Ne.symm hmns
    have hmdn : d ≠ m := Ne.symm hmnd
    rcases hppe : (getNode h s).parent with _ | p
    case none =>
      simp only [hppe, hml, getNode_setParent_self, getNode_setParent_ne,
        getNode_setLeft_self, getNode_setLeft_ne, getNode_setRight_self,
        getNode_setRight_ne, length_setParent, length_setLeft, length_setRight,
        hs, hdl, hsd, hds, hmns, hmnd, hmsn, hmdn, ne_eq, not_false_iff]
      refine ⟨_, rfl, ?_, ?_, ?_, ?_, ?_, ?_⟩
      · simp
      · simp [getNode_setParent_self, getNode_setParent_ne, getNode_setLeft_self,
            getNode_setLeft_ne, getNode_setRight_self, getNode_setRight_ne,
            length_setParent, length_setLeft, length_setRight, hs, hdl, hsd, hds, hmns, hmnd, hmsn, hmdn, hmlen]
      · simp [getNode_setParent_self, getNode_setParent_ne, getNode_setLeft_self,
            getNode_setLeft_ne, getNode_setRight_self, getNode_setRight_ne,
            length_setParent, length_setLeft, length_setRight, hs, hdl, hsd, hds, hmns, hmnd, hmsn, hmdn, hmlen]
      · intro m' hm'
        injection hm' with hme
        subst hme
        simp [getNode_setParent_self, getNode_setParent_ne, getNode_setLeft_self,
            getNode_setLeft_ne, getNode_setRight_self, getNode_setRight_ne,
            length_setParent, length_setLeft, length_setRight, hs, hdl, hsd, hds, hmns, hmnd, hmsn, hmdn, hmlen]
      · simp
      · intro j hjs hjd hjm hjp
        have h1 : s ≠ j := Ne.symm hjs
        have h2 : d ≠ j := Ne.symm hjd
        have h3 : m ≠ j := fun hc => hjm (by rw [hc])
        simp [getNode_setParent_ne, getNode_setLeft_ne, getNode_setRight_ne, h1, h2, h3]
    case some =>
      obtain ⟨hplen, hpns, hpnd, hpnm'⟩ := hp p hppe
      have hpnm : p ≠ m := hpnm' m hml
      have hpsn : s ≠ p := Ne.symm hpns
      have hpdn : d ≠ p := Ne.symm hpnd
      have hmpn : m ≠ p := Ne.symm hpnm
      simp only [hppe, hml, getNode_setParent_self, getNode_setParent_ne,
        getNode_setLeft_self, getNode_setLeft_ne, getNode_setRight_self,
        getNode_setRight_ne, length_setParent, length_setLeft, length_setRight,
        hs, hdl, hsd, hds, hmns, hmnd, hmsn, hmdn, hpns, hpnd, hpsn, hpdn, hpnm, hmpn, ne_eq, not_false_iff]
      by_cases hpl : (getNode h p).left = some s
      · rw [if_pos hpl]
        refine ⟨_, rfl, ?_, ?_, ?_, ?_, ?_, ?_⟩
        · simp
        · simp [getNode_setParent_self, getNode_setParent_ne, getNode_setLeft_self,
              getNode_setLeft_ne, getNode_setRight_self, getNode_setRight_ne,
              length_setParent, length_setLeft, length_setRight, hs, hdl, hsd, hds, hmns, hmnd, hmsn, hmdn, hmlen, hpns, hpnd, hpsn, hpdn, hplen, hpl, hpnm, hmpn]
        · simp [getNode_setParent_self, getNode_setParent_ne, getNode_setLeft_self,
              getNode_setLeft_ne, getNode_setRight_self, getNode_setRight_ne,
              length_setParent, length_setLeft, length_setRight, hs, hdl, hsd, hds, hmns, hmnd, hmsn, hmdn, hmlen, hpns, hpnd, hpsn, hpdn, hplen, hpl, hpnm, hmpn]
        · intro m' hm'
          injection hm' with hme
          subst hme
          simp [getNode_setParent_self, getNode_setParent_ne, getNode_setLeft_self,
              getNode_setLeft_ne, getNode_setRight_self, getNode_setRight_ne,
              length_setParent, length_setLeft, length_setRight, hs, hdl, hsd, hds, hmns, hmnd, hmsn, hmdn, hmlen, hpns, hpnd, hpsn, hpdn, hplen, hpl, hpnm, hmpn]
        · intro p' hp'
          injection hp' with hpe
          subst hpe
          simp [getNode_setParent_self, getNode_setParent_ne, getNode_setLeft_self,
              getNode_setLeft_ne, getNode_setRight_self, getNode_setRight_ne,
              length_setParent, length_setLeft, length_setRight, hs, hdl, hsd, hds, hmns, hmnd, hmsn, hmdn, hmlen, hpns, hpnd, hpsn, hpdn, hplen, hpl, hpnm, hmpn]
        · intro j hjs hjd hjm hjp
          have h1 : s ≠ j := Ne.symm hjs
          have h2 : d ≠ j := Ne.symm hjd
          have h3 : m ≠ j := fun hc => hjm (by rw [hc])
          have h4 : p ≠ j := fun hc => hjp (by rw [hc])
          simp [getNode_setParent_ne, getNode_setLeft_ne, getNode_setRight_ne, h1, h2, h3, h4]
      · rw [if_neg hpl]
        refine ⟨_, rfl, ?_, ?_, ?_, ?_, ?_, ?_⟩
        · simp
        · simp [getNode_setParent_self, getNode_setParent_ne, getNode_setLeft_self,
              getNode_setLeft_ne, getNode_setRight_self, getNode_setRight_ne,
              length_setParent, length_setLeft, length_setRight, hs, hdl, hsd, hds, hmns, hmnd, hmsn, hmdn, hmlen, hpns, hpnd, hpsn, hpdn, hplen, hpl, hpnm, hmpn]
        · simp [getNode_setParent_self, getNode_setParent_ne, getNode_setLeft_self,
              getNode_setLeft_ne, getNode_setRight_self, getNode_setRight_ne,
              length_setParent, length_setLeft, length_setRight, hs, hdl, hsd, hds, hmns, hmnd, hmsn, hmdn, hmlen, hpns, hpnd, hpsn, hpdn, hplen, hpl, hpnm, hmpn]
        · intro m' hm'
          injection hm' with hme
          subst hme
          simp [getNode_setParent_self, getNode_setParent_ne, getNode_setLeft_self,
              getNode_setLeft_ne, getNode_setRight_self, getNode_setRight_ne,
              length_setParent, length_setLeft, length_setRight, hs, hdl, hsd, hds, hmns, hmnd, hmsn, hmdn, hmlen, hpns, hpnd, hpsn, hpdn, hplen, hpl, hpnm, hmpn]
        · intro p' hp'
          injection hp' with hpe
          subst hpe
          simp [getNode_setParent_self, getNode_setParent_ne, getNode_setLeft_self,
              getNode_setLeft_ne, getNode_setRight_self, getNode_setRight_ne,
              length_setParent, length_setLeft, length_setRight, hs, hdl, hsd, hds, hmns, hmnd, hmsn, hmdn, hmlen, hpns, hpnd, hpsn, hpdn, hplen, hpl, hpnm, hmpn]
        · intro j hjs hjd hjm hjp
          have h1 : s ≠ j := Ne.symm hjs
          have h2 : d ≠ j := Ne.symm hjd
          have h3 : m ≠ j := fun hc => hjm (by rw [hc])
          have h4 : p ≠ j := fun hc => hjp (by rw [hc])
          simp [getNode_setParent_ne, getNode_setLeft_ne, getNode_setRight_ne, h1, h2, h3, h4]



theorem upd_parent_eta (x : RBTreeNode) (q : Ptr) (h : x.parent = q) :
    { x with parent := q } = x := by cases x; cases h; rfl

theorem upd_left_eta (x : RBTreeNode) (q : Ptr) (h : x.left = q) :
    { x with left := q } = x := by cases x; cases h; rfl

theorem upd_right_eta (x : RBTreeNode) (q : Ptr) (h : x.right = q) :
    { x with right := q } = x := by cases x; cases h; rfl

/-- LeftRotate then RightRotate at the same slot restores the heap exactly. -/
theorem LeftRight_roundtrip (h : Heap) {s d : Nat}
    (hd : (getNode h s).right = some d)
    (hdp : (getNode h d).parent = some s)
    (hs : s < h.length) (hdl : d < h.length) (hsd : s ≠ d)
    (hm : ∀ m, (getNode h d).left = some m →
      m < h.length ∧ m ≠ s ∧ m ≠ d ∧ (getNode h m).parent = some d)
    (hp : ∀ p, (getNode h s).parent = some p →
      p < h.length ∧ p ≠ s ∧ p ≠ d ∧ (∀ m, (getNode h d).left = some m → p ≠ m) ∧
      ((getNode h p).left = some s ∨
        ((getNode h p).left ≠ some s ∧ (getNode h p).right = some s ∧
          (getNode h p).left ≠ some d))) :
    ∃ h1, LeftRotate h s = some (h1, d) ∧ RightRotate h1 d = some (h, s) := by
  obtain ⟨h1, hrot, hlen1, hS, hD, hM, hP, hF⟩ :=
    LeftRotate_spec h hd hs hdl hsd
      (fun m hm' => ⟨(hm m hm').1, (hm m hm').2.1, (hm m hm').2.2.1⟩)
      (fun p hp' => ⟨(hp p hp').1, (hp p hp').2.1, (hp p hp').2.2.1, (hp p hp').2.2.2.1⟩)
  refine ⟨h1, hrot, ?_⟩
  have hd2 : (getNode h1 d).left = some s := by rw [hD]
  have hdparent : (getNode h1 d).parent = (getNode h s).parent := by rw [hD]
  have hsright : (getNode h1 s).right = (getNode h d).left := by rw [hS]
  have hs2 : d < h1.length := by rw [hlen1]; exact hdl
  have hdl2 : s < h1.length := by rw [hlen1]; exact hs
  have hm2 : ∀ m, (getNode h1 s).right = some m →
      m < h1.length ∧ m ≠ d ∧ m ≠ s := by
    intro m hm'
    rw [hsright] at hm'
    obtain ⟨h1', h2', h3', _⟩ := hm m hm'
    exact ⟨by rw [hlen1]; exact h1', h3', h2'⟩
  have hp2 : ∀ p, (getNode h1 d).parent = some p →
      p < h1.length ∧ p ≠ d ∧ p ≠ s ∧
      ∀ m, (getNode h1 s).right = some m → p ≠ m := by
    intro p hp'
    rw [hdparent] at hp'
    obtain ⟨h1', h2', h3', h4', _⟩ := hp p hp'
    refine ⟨by rw [hlen1]; exact h1', h3', h2', ?_⟩
    intro m hm'
    rw [hsright] at hm'
    exact h4' m hm'
  obtain ⟨h2, hrot2, hlen2, hTop2, hThat2, hM2, hP2, hF2⟩ :=
    RightRotate_spec h1 hd2 hs2 hdl2 (Ne.symm hsd) hm2 hp2
  have hfinal : h2 = h := by
    apply Heap.ext (by rw [hlen2, hlen1])
    intro j
    by_cases hjs : j = s
    · subst hjs
      rw [hThat2, hS, hdparent]
      exact upd_right_eta _ _ hd
    · by_cases hjd : j = d
      · subst hjd
        rw [hTop2, hD, hsright]
        exact upd_parent_eta _ _ hdp
      · by_cases hjm : (getNode h d).left = some j
        · have hmf := hm j hjm
          have h2j := hM2 j (by rw [hsright]; exact hjm)
          rw [h2j, hM j hjm]
          exact upd_parent_eta _ _ hmf.2.2.2
        · by_cases hjp : (getNode h s).parent = some j
          · have hpf := hp j hjp
            have h2j := hP2 j (by rw [hdparent]; exact hjp)
            have h1j := hP j hjp
            rcases hpf.2.2.2.2 with hsl | ⟨hnsl, hsr, hnld⟩
            · rw [if_pos hsl] at h1j
              have hc : (getNode h1 j).left = some d := by rw [h1j]
              rw [if_pos hc] at h2j
              rw [h2j, h1j]
              exact upd_left_eta _ _ hsl
            · rw [if_neg hnsl] at h1j
              have hc : ¬ (getNode h1 j).left = some d := by rw [h1j]; exact hnld
              rw [if_neg hc] at h2j
              rw [h2j, h1j]
              exact upd_right_eta _ _ hsr
          · rw [hF2 j hjd hjs (by rw [hsright]; exact fun hc => hjm hc)
              (by rw [hdparent]; exact fun hc => hjp hc)]
            exact hF j hjs hjd (fun hc => hjm hc) (fun hc => hjp hc)
  rw [hfinal] at hrot2
  exact hrot2


/-- RightRotate then LeftRotate at the same slot restores the heap exactly. -/
theorem RightLeft_roundtrip (h : Heap) {s d : Nat}
    (hd : (getNode h s).left = some d)
    (hdp : (getNode h d).parent = some s)
    (hs : s < h.length) (hdl : d < h.length) (hsd : s ≠ d)
    (hm : ∀ m, (getNode h d).right = some m →
      m < h.length ∧ m ≠ s ∧ m ≠ d ∧ (getNode h m).parent = some d)
    (hp : ∀ p, (getNode h s).parent = some p →
      p < h.length ∧ p ≠ s ∧ p ≠ d ∧ (∀ m, (getNode h d).right = some m → p ≠ m) ∧
      ((getNode h p).left = some s ∨
        ((getNode h p).left ≠ some s ∧ (getNode h p).right = some s ∧
          (getNode h p).left ≠ some d))) :
    ∃ h1, RightRotate h s = some (h1, d) ∧ LeftRotate h1 d = some (h, s) := by
  obtain ⟨h1, hrot, hlen1, hS, hD, hM, hP, hF⟩ :=
    RightRotate_spec h hd hs hdl hsd
      (fun m hm' => ⟨(hm m hm').1, (hm m hm').2.1, (hm m hm').2.2.1⟩)
      (fun p hp' => ⟨(hp p hp').1, (hp p hp').2.1, (hp p hp').2.2.1, (hp p hp').2.2.2.1⟩)
  refine ⟨h1, hrot, ?_⟩
  have hd2 : (getNode h1 d).right = some s := by rw [hD]
  have hdparent : (getNode h1 d).parent = (getNode h s).parent := by rw [hD]
  have hsleft : (getNode h1 s).left = (getNode h d).right := by rw [hS]
  have hs2 : d < h1.length := by rw [hlen1]; exact hdl
  have hdl2 : s < h1.length := by rw [hlen1]; exact hs
  have hm2 : ∀ m, (getNode h1 s).left = some m →
      m < h1.length ∧ m ≠ d ∧ m ≠ s := by
    intro m hm'
    rw [hsleft] at hm'
    obtain ⟨h1', h2', h3', _⟩ := hm m hm'
    exact ⟨by rw [hlen1]; exact h1', h3', h2'⟩
  have hp2 : ∀ p, (getNode h1 d).parent = some p →
      p < h1.length ∧ p ≠ d ∧ p ≠ s ∧
      ∀ m, (getNode h1 s).left = some m → p ≠ m := by
    intro p hp'
    rw [hdparent] at hp'
    obtain ⟨h1', h2', h3', h4', _⟩ := hp p hp'
    refine ⟨by rw [hlen1]; exact h1', h3', h2', ?_⟩
    intro m hm'
    rw [hsleft] at hm'
    exact h4' m hm'
  obtain ⟨h2, hrot2, hlen2, hTop2, hThat2, hM2, hP2, hF2⟩ :=
    LeftRotate_spec h1 hd2 hs2 hdl2 (Ne.symm hsd) hm2 hp2
  have hfinal : h2 = h := by
    apply Heap.ext (by rw [hlen2, hlen1])
    intro j
    by_cases hjs : j = s
    · subst hjs
      rw [hThat2, hS, hdparent]
      exact upd_left_eta _ _ hd
    · by_cases hjd : j = d
      · subst hjd
        rw [hTop2, hD, hsleft]
        exact upd_parent_eta _ _ hdp
      · by_cases hjm : (getNode h d).right = some j
        · have hmf := hm j hjm
          have h2j := hM2 j (by rw [hsleft]; exact hjm)
          rw [h2j, hM j hjm]
          exact upd_parent_eta _ _ hmf.2.2.2
        · by_cases hjp : (getNode h s).parent = some j
          · have hpf := hp j hjp
            have h2j := hP2 j (by rw [hdparent]; exact hjp)
            have h1j := hP j hjp
            rcases hpf.2.2.2.2 with hsl | ⟨hnsl, hsr, hnld⟩
            · rw [if_pos hsl] at h1j
              have hc : (getNode h1 j).left = some d := by rw [h1j]
              rw [if_pos hc] at h2j
              rw [h2j, h1j]
              exact upd_left_eta _ _ hsl
            · rw [if_neg hnsl] at h1j
              have hc : ¬ (getNode h1 j).left = some d := by rw [h1j]; exact hnld
              rw [if_neg hc] at h2j
              rw [h2j, h1j]
              exact upd_right_eta _ _ hsr
          · rw [hF2 j hjd hjs (by rw [hsleft]; exact fun hc => hjm hc)
              (by rw [hdparent]; exact fun hc => hjp hc)]
            exact hF j hjs hjd (fun hc => hjm hc) (fun hc => hjp hc)
  rw [hfinal] at hrot2
  exact hrot2


/-- C10: for every node whose right child exists (with the in-range,
back-reference and distinctness facts that a well-formed tree provides for
its pointer neighborhood), applying `LeftRotate` to its subtree slot and then
`RightRotate` to the same slot restores exactly the original heap — every
node ends with the same parent, left and right relations and unchanged color
and value; symmetrically `RightRotate` followed by `LeftRotate` when the
left child exists. -/
theorem C10_rotation_roundtrip :
    (∀ (h : Heap) (s d : Nat),
      (getNode h s).right = some d →
      (getNode h d).parent = some s →
      s < h.length → d < h.length → s ≠ d →
      (∀ m, (getNode h d).left = some m →
        m < h.length ∧ m ≠ s ∧ m ≠ d ∧ (getNode h m).parent = some d) →
      (∀ p, (getNode h s).parent = some p →
        p < h.length ∧ p ≠ s ∧ p ≠ d ∧ (∀ m, (getNode h d).left = some m → p ≠ m) ∧
        ((getNode h p).left = some s ∨
          ((getNode h p).left ≠ some s ∧ (getNode h p).right = some s ∧
            (getNode h p).left ≠ some d))) →
      ∃ h1, LeftRotate h s = some (h1, d) ∧ RightRotate h1 d = some (h, s)) ∧
    (∀ (h : Heap) (s d : Nat),
      (getNode h s).left = some d →
      (getNode h d).parent = some s →
      s < h.length → d < h.length → s ≠ d →
      (∀ m, (getNode h d).right = some m →
        m < h.length ∧ m ≠ s ∧ m ≠ d ∧ (getNode h m).parent = some d) →
      (∀ p, (getNode h s).parent = some p →
        p < h.length ∧ p ≠ s ∧ p ≠ d ∧ (∀ m, (getNode h d).right = some m → p ≠ m) ∧
        ((getNode h p).left = some s ∨
          ((getNode h p).left ≠ some s ∧ (getNode h p).right = some s ∧
            (getNode h p).left ≠ some d))) →
      ∃ h1, RightRotate h s = some (h1, d) ∧ LeftRotate h1 d = some (h, s)) :=
  ⟨fun h _ _ hd hdp hs hdl hsd hm hp => LeftRight_roundtrip h hd hdp hs hdl hsd hm hp,
   fun h _ _ hd hdp hs hdl hsd hm hp => RightLeft_roundtrip h hd hdp hs hdl hsd hm hp⟩

/-- Witness for C10 on the `RotateTest` fixture: rotating at node 0
(value 2) left then right — and right then left — restores the fixture. -/
theorem C10_rotation_roundtrip_witness :
    (∃ h1, LeftRotate rotFixture 0 = some (h1, 2) ∧
      RightRotate h1 2 = some (rotFixture, 0)) ∧
    (∃ h1, RightRotate rotFixture 0 = some (h1, 1) ∧
      LeftRotate h1 1 = some (rotFixture, 0)) := by
  constructor
  · exact C10_rotation_roundtrip.1 rotFixture 0 2 (by decide) (by decide)
      (by decide) (by decide) (by decide)
      (fun m hm' => by injection hm' with hh; subst hh; decide)
      (fun p hp' => by cases hp')
  · exact C10_rotation_roundtrip.2 rotFixture 0 1 (by decide) (by decide)
      (by decide) (by decide) (by decide)
      (fun m hm' => by cases hm')
      (fun p hp' => by cases hp')


/-- Fuel upper-bounds the height of an extracted tree. -/
theorem toTree_height_le (h : Heap) :
    ∀ {f : Nat} {p : Ptr} {t : Tree}, toTree h f p = some t → t.height ≤ f := by
  intro f
  induction f with
  | zero =>
      intro p t hp
      cases p with
      | none => cases hp; simp [Tree.height]
      | some j => simp [toTree] at hp
  | succ f ih =>
      intro p t hp
      cases p with
      | none => cases hp; simp [Tree.height]
      | some j =>
          obtain ⟨f', l, r, hf, hj, hl, hr, rfl⟩ := toTree_some_elim hp
          cases hf
          have := ih hl
          have := ih hr
          simp only [Tree.height]
          omega

/-- A non-nil extraction's recorded root index identifies the pointer. -/
theorem toTree_node_ptr {h : Heap} {f : Nat} {p : Ptr} {c i v l r}
    (hp : toTree h f p = some (.node c i v l r)) : p = some i := by
  cases p with
  | none => rw [toTree_none] at hp; cases hp
  | some j =>
      obtain ⟨f', l', r', hf, hj, hl, hr, he⟩ := toTree_some_elim hp
      cases he
      rfl

theorem indices_node (c : RBColor) (i : Nat) (v : Int) (l r : Tree) :
    (Tree.node c i v l r).indices = l.indices ++ i :: r.indices := rfl

theorem mem_indices_node {c : RBColor} {i j : Nat} {v : Int} {l r : Tree} :
    j ∈ (Tree.node c i v l r).indices ↔ j ∈ l.indices ∨ j = i ∨ j ∈ r.indices := by
  simp [indices_node]

/-- Decompose `Nodup` of a node's index list. -/
theorem nodup_node_elim {c : RBColor} {i : Nat} {v : Int} {l r : Tree}
    (h : (Tree.node c i v l r).indices.Nodup) :
    l.indices.Nodup ∧ r.indices.Nodup ∧ i ∉ l.indices ∧ i ∉ r.indices ∧
      ∀ j, j ∈ l.indices → j ∉ r.indices := by
  rw [indices_node] at h
  rw [List.nodup_append] at h
  obtain ⟨hl, hir, hdisj⟩ := h
  rw [List.nodup_cons] at hir
  refine ⟨hl, hir.2, ?_, hir.1, ?_⟩
  · intro hc
    exact (hdisj hc) (by simp)
  · intro j hj hjr
    exact (hdisj hj) (by simp [hjr])

/-- Effect of `LeftRotate` on the extracted subtree: the functional left
rotation.  Colors and values of every node in the heap are untouched. -/
theorem LeftRotate_toTree {h : Heap} {f s d : Nat} {c c2 : RBColor}
    {v v2 : Int} {l m r : Tree}
    (htt : toTree h f (some s) = some (.node c s v l (.node c2 d v2 m r)))
    (hnd : (Tree.node c s v l (.node c2 d v2 m r)).indices.Nodup)
    (hpout : ∀ p, (getNode h s).parent = some p →
      p < h.length ∧ p ∉ (Tree.node c s v l (.node c2 d v2 m r)).indices) :
    ∃ h', LeftRotate h s = some (h', d) ∧ h'.length = h.length ∧
      toTree h' (f + 1) (some d) = some (.node c2 d v2 (.node c s v l m) r) ∧
      (∀ j, (getNode h' j).color = (getNode h j).color ∧
        (getNode h' j).value = (getNode h j).value) ∧
      getNode h' s = { getNode h s with parent := some d, right := (getNode h d).left } ∧
      getNode h' d = { getNode h d with left := some s, parent := (getNode h s).parent } ∧
      (∀ m0, (getNode h d).left = some m0 →
        getNode h' m0 = { getNode h m0 with parent := some s }) ∧
      (∀ p, (getNode h s).parent = some p →
        getNode h' p = (if (getNode h p).left = some s
          then { getNode h p with left := some d }
          else { getNode h p with right := some d })) ∧
      (∀ j, j ≠ s → j ≠ d → (getNode h d).left ≠ some j →
        (getNode h s).parent ≠ some j → getNode h' j = getNode h j) := by
  obtain ⟨f1, l0, r0, hf, hslen, hl0, hr0, he⟩ := toTree_some_elim htt
  subst hf
  injection he with hce hie hve hle hre
  subst hle
  subst hre
  have hdr : (getNode h s).right = some d := toTree_node_ptr hr0
  rw [hdr] at hr0
  obtain ⟨f2, m0t, r0t, hf1, hdlen, hm0, hr0t, he2⟩ := toTree_some_elim hr0
  subst hf1
  injection he2 with hce2 hie2 hve2 hle2 hre2
  subst hle2
  subst hre2
  obtain ⟨hndl, hndr, hsnl, hsnr, hdisj⟩ := nodup_node_elim hnd
  obtain ⟨hndm, hndr2, hdnm, hdnr, hdisj2⟩ := nodup_node_elim hndr
  have hdmem : d ∈ (Tree.node c2 d v2 m r).indices := by simp [mem_indices_node]
  have hsmem : s ∈ (Tree.node c s v l (.node c2 d v2 m r)).indices := by
    simp [mem_indices_node]
  have hsd : s ≠ d := fun hc => hsnr (hc ▸ hdmem)
  -- facts about the head of the moved subtree, when it exists
  have hm0mem : ∀ m0, (getNode h d).left = some m0 → m0 ∈ m.indices := by
    intro m0 hm0e
    rw [hm0e] at hm0
    obtain ⟨f3, a, b, hf3, _, _, _, hm0sh⟩ := toTree_some_elim hm0
    rw [hm0sh]
    simp [mem_indices_node]
  have hmfacts : ∀ m0, (getNode h d).left = some m0 →
      m0 < h.length ∧ m0 ≠ s ∧ m0 ≠ d := by
    intro m0 hm0e
    have hmm := hm0mem m0 hm0e
    have hmtop : m0 ∈ (Tree.node c2 d v2 m r).indices :=
      mem_indices_node.mpr (Or.inl hmm)
    refine ⟨?_, fun hc => hsnr (hc ▸ hmtop), fun hc => hdnm (hc ▸ hmm)⟩
    rw [hm0e] at hm0
    exact toTree_indices_lt h hm0 m0 (by
      obtain ⟨f3, a, b, hf3, _, _, _, hm0sh⟩ := toTree_some_elim hm0
      rw [hm0sh]; simp [mem_indices_node])
  have hpfacts : ∀ p, (getNode h s).parent = some p →
      p < h.length ∧ p ≠ s ∧ p ≠ d ∧ ∀ m0, (getNode h d).left = some m0 → p ≠ m0 := by
    intro p hpe
    obtain ⟨hplen, hpnin⟩ := hpout p hpe
    refine ⟨hplen, fun hc => hpnin (by rw [hc]; exact hsmem),
      fun hc => hpnin (by
        rw [hc]
        exact mem_indices_node.mpr (Or.inr (Or.inr hdmem))), ?_⟩
    intro m0 hm0e hc
    have hmm := hm0mem m0 hm0e
    refine hpnin (by
      rw [hc]
      exact mem_indices_node.mpr (Or.inr (Or.inr
        (mem_indices_node.mpr (Or.inl hmm)))))
  obtain ⟨h', hrot, hlen, hS, hD, hM, hP, hF⟩ :=
    LeftRotate_spec h hdr hslen hdlen hsd hmfacts hpfacts
  refine ⟨h', hrot, hlen, ?_, ?_, hS, hD, hM, hP, hF⟩
  · -- the extracted tree after rotation
    have hlmem : ∀ i ∈ l.indices, i ∈ (Tree.node c s v l (.node c2 d v2 m r)).indices :=
      fun i hi => mem_indices_node.mpr (Or.inl hi)
    have hmmem : ∀ i ∈ m.indices, i ∈ (Tree.node c s v l (.node c2 d v2 m r)).indices :=
      fun i hi => mem_indices_node.mpr (Or.inr (Or.inr (mem_indices_node.mpr (Or.inl hi))))
    have hrmem : ∀ i ∈ r.indices, i ∈ (Tree.node c s v l (.node c2 d v2 m r)).indices :=
      fun i hi => mem_indices_node.mpr (Or.inr (Or.inr (mem_indices_node.mpr (Or.inr (Or.inr hi)))))
    have frameL : toTree h' (f2 + 1) ((getNode h s).left) = some l := by
      apply toTree_frame h h' hl0
      intro i hi
      have his : i ≠ s := fun hc => hsnl (hc ▸ hi)
      have hid : i ≠ d := fun hc => hdisj i hi (by rw [hc] at hi ⊢; exact hdmem)
      have him : (getNode h d).left ≠ some i := by
        intro hc
        exact hdisj i hi (mem_indices_node.mpr (Or.inl (hm0mem i hc)))
      have hip : (getNode h s).parent ≠ some i :=
        fun hc => (hpout i hc).2 (hlmem i hi)
      rw [hF i his hid him hip]
      exact ⟨by rw [hlen]; exact toTree_indices_lt h hl0 i hi, rfl, rfl, rfl, rfl⟩
    have frameM : toTree h' f2 ((getNode h d).left) = some m := by
      apply toTree_frame h h' hm0
      intro i hi
      have hilt : i < h.length := toTree_indices_lt h hm0 i hi
      by_cases him : (getNode h d).left = some i
      · rw [hM i him]
        exact ⟨by rw [hlen]; exact hilt, rfl, rfl, rfl, rfl⟩
      · have his : i ≠ s := fun hc => hsnr (by
          rw [hc] at hi
          exact mem_indices_node.mpr (Or.inl hi))
        have hid : i ≠ d := fun hc => hdnm (hc ▸ hi)
        have hip : (getNode h s).parent ≠ some i :=
          fun hc => (hpout i hc).2 (hmmem i hi)
        rw [hF i his hid him hip]
        exact ⟨by rw [hlen]; exact hilt, rfl, rfl, rfl, rfl⟩
    have frameR : toTree h' f2 ((getNode h d).right) = some r := by
      apply toTree_frame h h' hr0t
      intro i hi
      have hilt : i < h.length := toTree_indices_lt h hr0t i hi
      have his : i ≠ s := fun hc => hsnr (by
        rw [hc] at hi
        exact mem_indices_node.mpr (Or.inr (Or.inr hi)))
      have hid : i ≠ d := fun hc => hdnr (hc ▸ hi)
      have him : (getNode h d).left ≠ some i := by
        intro hc
        exact hdisj2 i (hm0mem i hc) hi
      have hip : (getNode h s).parent ≠ some i :=
        fun hc => (hpout i hc).2 (hrmem i hi)
      rw [hF i his hid him hip]
      exact ⟨by rw [hlen]; exact hilt, rfl, rfl, rfl, rfl⟩
    have hs' : s < h'.length := by rw [hlen]; exact hslen
    have hd' : d < h'.length := by rw [hlen]; exact hdlen
    have hSl : (getNode h' s).left = (getNode h s).left := by rw [hS]
    have hSr : (getNode h' s).right = (getNode h d).left := by rw [hS]
    have hSc : (getNode h' s).color = (getNode h s).color := by rw [hS]
    have hSv : (getNode h' s).value = (getNode h s).value := by rw [hS]
    have hDl : (getNode h' d).left = some s := by rw [hD]
    have hDr : (getNode h' d).right = (getNode h d).right := by rw [hD]
    have hDc : (getNode h' d).color = (getNode h d).color := by rw [hD]
    have hDv : (getNode h' d).value = (getNode h d).value := by rw [hD]
    have asmS : toTree h' (f2 + 2) (some s) = some (.node c s v l m) := by
      rw [toTree_some_succ, if_pos hs', hSl, hSr, frameL,
        toTree_min_fuel h' frameM (f2 + 1)
          (Nat.le_succ_of_le (toTree_height_le h hm0)),
        hSc, hSv, ← hce, ← hve]
    have asmD : toTree h' (f2 + 1 + 1 + 1) (some d) =
        some (.node c2 d v2 (.node c s v l m) r) := by
      rw [toTree_some_succ, if_pos hd', hDl, hDr,
        show f2 + 1 + 1 = f2 + 2 from rfl, asmS,
        toTree_min_fuel h' frameR (f2 + 2)
          (le_trans (toTree_height_le h hr0t) (by omega)),
        hDc, hDv, ← hce2, ← hve2]
    exact asmD
  · -- colors and values everywhere
    intro j
    by_cases hjs : j = s
    · subst hjs; rw [hS]; exact ⟨rfl, rfl⟩
    · by_cases hjd : j = d
      · subst hjd; rw [hD]; exact ⟨rfl, rfl⟩
      · by_cases hjm : (getNode h d).left = some j
        · rw [hM j hjm]; exact ⟨rfl, rfl⟩
        · by_cases hjp : (getNode h s).parent = some j
          · rw [hP j hjp]
            by_cases hpl : (getNode h j).left = some s
            · rw [if_pos hpl]; exact ⟨rfl, rfl⟩
            · rw [if_neg hpl]; exact ⟨rfl, rfl⟩
          · rw [hF j hjs hjd hjm hjp]; exact ⟨rfl, rfl⟩

/-- Effect of `RightRotate` on the extracted subtree: the functional right
rotation.  Colors and values of every node in the heap are untouched. -/
theorem RightRotate_toTree {h : Heap} {f s d : Nat} {c c2 : RBColor}
    {v v2 : Int} {l2 m r : Tree}
    (htt : toTree h f (some s) = some (.node c s v (.node c2 d v2 l2 m) r))
    (hnd : (Tree.node c s v (.node c2 d v2 l2 m) r).indices.Nodup)
    (hpout : ∀ p, (getNode h s).parent = some p →
      p < h.length ∧ p ∉ (Tree.node c s v (.node c2 d v2 l2 m) r).indices) :
    ∃ h', RightRotate h s = some (h', d) ∧ h'.length = h.length ∧
      toTree h' (f + 1) (some d) = some (.node c2 d v2 l2 (.node c s v m r)) ∧
      (∀ j, (getNode h' j).color = (getNode h j).color ∧
        (getNode h' j).value = (getNode h j).value) ∧
      getNode h' s = { getNode h s with parent := some d, left := (getNode h d).right } ∧
      getNode h' d = { getNode h d with right := some s, parent := (getNode h s).parent } ∧
      (∀ m0, (getNode h d).right = some m0 →
        getNode h' m0 = { getNode h m0 with parent := some s }) ∧
      (∀ p, (getNode h s).parent = some p →
        getNode h' p = (if (getNode h p).left = some s
          then { getNode h p with left := some d }
          else { getNode h p with right := some d })) ∧
      (∀ j, j ≠ s → j ≠ d → (getNode h d).right ≠ some j →
        (getNode h s).parent ≠ some j → getNode h' j = getNode h j) := by
  obtain ⟨f1, l0, r0, hf, hslen, hl0, hr0, he⟩ := toTree_some_elim htt
  subst hf
  injection he with hce hie hve hle hre
  subst hre
  subst hle
  have hdr : (getNode h s).left = some d := toTree_node_ptr hl0
  rw [hdr] at hl0
  obtain ⟨f2, m0t, r0t, hf1, hdlen, hl20, hm0, he2⟩ := toTree_some_elim hl0
  subst hf1
  injection he2 with hce2 hie2 hve2 hle2 hre2
  subst hle2
  subst hre2
  obtain ⟨hndl, hndr, hsnl, hsnr, hdisj⟩ := nodup_node_elim hnd
  obtain ⟨hndl2, hndm, hdnl2, hdnm, hdisj2⟩ := nodup_node_elim hndl
  have hdmem : d ∈ (Tree.node c2 d v2 l2 m).indices := by simp [mem_indices_node]
  have hsmem : s ∈ (Tree.node c s v (.node c2 d v2 l2 m) r).indices := by
    simp [mem_indices_node]
  have hsd : s ≠ d := fun hc => hsnl (hc ▸ hdmem)
  have hm0mem : ∀ m0, (getNode h d).right = some m0 → m0 ∈ m.indices := by
    intro m0 hm0e
    rw [hm0e] at hm0
    obtain ⟨f3, a, b, hf3, _, _, _, hm0sh⟩ := toTree_some_elim hm0
    rw [hm0sh]
    simp [mem_indices_node]
  have hmfacts : ∀ m0, (getNode h d).right = some m0 →
      m0 < h.length ∧ m0 ≠ s ∧ m0 ≠ d := by
    intro m0 hm0e
    have hmm := hm0mem m0 hm0e
    have hmtop : m0 ∈ (Tree.node c2 d v2 l2 m).indices :=
      mem_indices_node.mpr (Or.inr (Or.inr hmm))
    refine ⟨?_, fun hc => hsnl (hc ▸ hmtop), fun hc => hdnm (hc ▸ hmm)⟩
    rw [hm0e] at hm0
    exact toTree_indices_lt h hm0 m0 (by
      obtain ⟨f3, a, b, hf3, _, _, _, hm0sh⟩ := toTree_some_elim hm0
      rw [hm0sh]; simp [mem_indices_node])
  have hpfacts : ∀ p, (getNode h s).parent = some p →
      p < h.length ∧ p ≠ s ∧ p ≠ d ∧ ∀ m0, (getNode h d).right = some m0 → p ≠ m0 := by
    intro p hpe
    obtain ⟨hplen, hpnin⟩ := hpout p hpe
    refine ⟨hplen, fun hc => hpnin (by rw [hc]; exact hsmem),
      fun hc => hpnin (by
        rw [hc]
        exact mem_indices_node.mpr (Or.inl hdmem)), ?_⟩
    intro m0 hm0e hc
    have hmm := hm0mem m0 hm0e
    refine hpnin (by
      rw [hc]
      exact mem_indices_node.mpr (Or.inl
        (mem_indices_node.mpr (Or.inr (Or.inr hmm)))))
  obtain ⟨h', hrot, hlen, hS, hD, hM, hP, hF⟩ :=
    RightRotate_spec h hdr hslen hdlen hsd hmfacts hpfacts
  refine ⟨h', hrot, hlen, ?_, ?_, hS, hD, hM, hP, hF⟩
  · have hl2mem : ∀ i ∈ l2.indices, i ∈ (Tree.node c s v (.node c2 d v2 l2 m) r).indices :=
      fun i hi => mem_indices_node.mpr (Or.inl (mem_indices_node.mpr (Or.inl hi)))
    have hmmem : ∀ i ∈ m.indices, i ∈ (Tree.node c s v (.node c2 d v2 l2 m) r).indices :=
      fun i hi => mem_indices_node.mpr (Or.inl (mem_indices_node.mpr (Or.inr (Or.inr hi))))
    have hrmem : ∀ i ∈ r.indices, i ∈ (Tree.node c s v (.node c2 d v2 l2 m) r).indices :=
      fun i hi => mem_indices_node.mpr (Or.inr (Or.inr hi))
    have frameR : toTree h' (f2 + 1) ((getNode h s).right) = some r := by
      apply toTree_frame h h' hr0
      intro i hi
      have his : i ≠ s := fun hc => hsnr (hc ▸ hi)
      have hid : i ≠ d := fun hc => hdisj d hdmem (by rw [← hc]; exact hi)
      have him : (getNode h d).right ≠ some i := by
        intro hc
        exact hdisj i (mem_indices_node.mpr (Or.inr (Or.inr (hm0mem i hc)))) hi
      have hip : (getNode h s).parent ≠ some i :=
        fun hc => (hpout i hc).2 (hrmem i hi)
      rw [hF i his hid him hip]
      exact ⟨by rw [hlen]; exact toTree_indices_lt h hr0 i hi, rfl, rfl, rfl, rfl⟩
    have frameM : toTree h' f2 ((getNode h d).right) = some m := by
      apply toTree_frame h h' hm0
      intro i hi
      have hilt : i < h.length := toTree_indices_lt h hm0 i hi
      by_cases him : (getNode h d).right = some i
      · rw [hM i him]
        exact ⟨by rw [hlen]; exact hilt, rfl, rfl, rfl, rfl⟩
      · have his : i ≠ s := fun hc => hsnl (by
          rw [hc] at hi
          exact mem_indices_node.mpr (Or.inr (Or.inr hi)))
        have hid : i ≠ d := fun hc => hdnm (hc ▸ hi)
        have hip : (getNode h s).parent ≠ some i :=
          fun hc => (hpout i hc).2 (hmmem i hi)
        rw [hF i his hid him hip]
        exact ⟨by rw [hlen]; exact hilt, rfl, rfl, rfl, rfl⟩
    have frameL2 : toTree h' f2 ((getNode h d).left) = some l2 := by
      apply toTree_frame h h' hl20
      intro i hi
      have hilt : i < h.length := toTree_indices_lt h hl20 i hi
      have his : i ≠ s := fun hc => hsnl (by
        rw [hc] at hi
        exact mem_indices_node.mpr (Or.inl hi))
      have hid : i ≠ d := fun hc => hdnl2 (hc ▸ hi)
      have him : (getNode h d).right ≠ some i := by
        intro hc
        exact hdisj2 i hi (hm0mem i hc)
      have hip : (getNode h s).parent ≠ some i :=
        fun hc => (hpout i hc).2 (hl2mem i hi)
      rw [hF i his hid him hip]
      exact ⟨by rw [hlen]; exact hilt, rfl, rfl, rfl, rfl⟩
    have hs' : s < h'.length := by rw [hlen]; exact hslen
    have hd' : d < h'.length := by rw [hlen]; exact hdlen
    have hSl : (getNode h' s).left = (getNode h d).right := by rw [hS]
    have hSr : (getNode h' s).right = (getNode h s).right := by rw [hS]
    have hSc : (getNode h' s).color = (getNode h s).color := by rw [hS]
    have hSv : (getNode h' s).value = (getNode h s).value := by rw [hS]
    have hDl : (getNode h' d).left = (getNode h d).left := by rw [hD]
    have hDr : (getNode h' d).right = some s := by rw [hD]
    have hDc : (getNode h' d).color = (getNode h d).color := by rw [hD]
    have hDv : (getNode h' d).value = (getNode h d).value := by rw [hD]
    have asmS : toTree h' (f2 + 2) (some s) = some (.node c s v m r) := by
      rw [toTree_some_succ, if_pos hs', hSl, hSr,
        toTree_min_fuel h' frameM (f2 + 1)
          (Nat.le_succ_of_le (toTree_height_le h hm0)),
        frameR, hSc, hSv, ← hce, ← hve]
    have asmD : toTree h' (f2 + 1 + 1 + 1) (some d) =
        some (.node c2 d v2 l2 (.node c s v m r)) := by
      rw [toTree_some_succ, if_pos hd', hDl, hDr,
        show f2 + 1 + 1 = f2 + 2 from rfl, asmS,
        toTree_min_fuel h' frameL2 (f2 + 2)
          (le_trans (toTree_height_le h hl20) (by omega)),
        hDc, hDv, ← hce2, ← hve2]
    exact asmD
  · intro j
    by_cases hjs : j = s
    · subst hjs; rw [hS]; exact ⟨rfl, rfl⟩
    · by_cases hjd : j = d
      · subst hjd; rw [hD]; exact ⟨rfl, rfl⟩
      · by_cases hjm : (getNode h d).right = some j
        · rw [hM j hjm]; exact ⟨rfl, rfl⟩
        · by_cases hjp : (getNode h s).parent = some j
          · rw [hP j hjp]
            by_cases hpl : (getNode h j).left = some s
            · rw [if_pos hpl]; exact ⟨rfl, rfl⟩
            · rw [if_neg hpl]; exact ⟨rfl, rfl⟩
          · rw [hF j hjs hjd hjm hjp]; exact ⟨rfl, rfl⟩


/-- C5: a rotation on a node with the required child present (inside a
well-formed subtree whose outside parent, if any, lies outside the subtree)
changes only the parent/left/right relations of the affected nodes: every
node keeps its color and value, the in-order value sequence of the subtree
is preserved, the relocated child's and the moved subtree's back-references
are updated, the former parent's child slot (when present) is redirected to
the new top, unaffected nodes are completely untouched, and the caller's top
pointer is repointed to the former child; mirror statement for `RightRotate`. -/
theorem C5_rotation_frame :
    (∀ (h : Heap) (f s d : Nat) (c c2 : RBColor) (v v2 : Int) (l m r : Tree),
      toTree h f (some s) = some (.node c s v l (.node c2 d v2 m r)) →
      (Tree.node c s v l (.node c2 d v2 m r)).indices.Nodup →
      (∀ p, (getNode h s).parent = some p →
        p < h.length ∧ p ∉ (Tree.node c s v l (.node c2 d v2 m r)).indices) →
      ∃ h', LeftRotate h s = some (h', d) ∧
        (∀ j, (getNode h' j).color = (getNode h j).color ∧
          (getNode h' j).value = (getNode h j).value) ∧
        (∃ t', toTree h' (f + 1) (some d) = some t' ∧
          t'.inorder = (Tree.node c s v l (.node c2 d v2 m r)).inorder) ∧
        (getNode h' s).parent = some d ∧
        (getNode h' d).parent = (getNode h s).parent ∧
        (∀ m0, (getNode h d).left = some m0 → (getNode h' m0).parent = some s) ∧
        (∀ p, (getNode h s).parent = some p →
          ((getNode h p).left = some s → (getNode h' p).left = some d) ∧
          ((getNode h p).left ≠ some s → (getNode h' p).right = some d)) ∧
        (∀ j, j ≠ s → j ≠ d → (getNode h d).left ≠ some j →
          (getNode h s).parent ≠ some j → getNode h' j = getNode h j)) ∧
    (∀ (h : Heap) (f s d : Nat) (c c2 : RBColor) (v v2 : Int) (l2 m r : Tree),
      toTree h f (some s) = some (.node c s v (.node c2 d v2 l2 m) r) →
      (Tree.node c s v (.node c2 d v2 l2 m) r).indices.Nodup →
      (∀ p, (getNode h s).parent = some p →
        p < h.length ∧ p ∉ (Tree.node c s v (.node c2 d v2 l2 m) r).indices) →
      ∃ h', RightRotate h s = some (h', d) ∧
        (∀ j, (getNode h' j).color = (getNode h j).color ∧
          (getNode h' j).value = (getNode h j).value) ∧
        (∃ t', toTree h' (f + 1) (some d) = some t' ∧
          t'.inorder = (Tree.node c s v (.node c2 d v2 l2 m) r).inorder) ∧
        (getNode h' s).parent = some d ∧
        (getNode h' d).parent = (getNode h s).parent ∧
        (∀ m0, (getNode h d).right = some m0 → (getNode h' m0).parent = some s) ∧
        (∀ p, (getNode h s).parent = some p →
          ((getNode h p).left = some s → (getNode h' p).left = some d) ∧
          ((getNode h p).left ≠ some s → (getNode h' p).right = some d)) ∧
        (∀ j, j ≠ s → j ≠ d → (getNode h d).right ≠ some j →
          (getNode h s).parent ≠ some j → getNode h' j = getNode h j)) := by
  constructor
  · intro h f s d c c2 v v2 l m r htt hnd hpout
    obtain ⟨h', hrot, hlen, httn, hcv, hS, hD, hM, hP, hF⟩ :=
      LeftRotate_toTree htt hnd hpout
    refine ⟨h', hrot, hcv, ⟨_, httn, ?_⟩, by rw [hS], by rw [hD], ?_, ?_, hF⟩
    · simp [Tree.inorder, List.append_assoc]
    · intro m0 hm0
      rw [hM m0 hm0]
    · intro p hp
      have hp' := hP p hp
      constructor
      · intro hpl
        rw [hp', if_pos hpl]
      · intro hpl
        rw [hp', if_neg hpl]
  · intro h f s d c c2 v v2 l2 m r htt hnd hpout
    obtain ⟨h', hrot, hlen, httn, hcv, hS, hD, hM, hP, hF⟩ :=
      RightRotate_toTree htt hnd hpout
    refine ⟨h', hrot, hcv, ⟨_, httn, ?_⟩, by rw [hS], by rw [hD], ?_, ?_, hF⟩
    · simp [Tree.inorder, List.append_assoc]
    · intro m0 hm0
      rw [hM m0 hm0]
    · intro p hp
      have hp' := hP p hp
      constructor
      · intro hpl
        rw [hp', if_pos hpl]
      · intro hpl
        rw [hp', if_neg hpl]


/-- Witness for C5 on the `RotateTest` fixture: both rotations at node 0
relocate the child into the top slot and keep all colors and values. -/
theorem C5_rotation_frame_witness :
    (∃ h', LeftRotate rotFixture 0 = some (h', 2) ∧
      ∀ j, (getNode h' j).color = (getNode rotFixture j).color ∧
        (getNode h' j).value = (getNode rotFixture j).value) ∧
    (∃ h', RightRotate rotFixture 0 = some (h', 1) ∧
      ∀ j, (getNode h' j).color = (getNode rotFixture j).color ∧
        (getNode h' j).value = (getNode rotFixture j).value) := by
  constructor
  · obtain ⟨h', hrot, hcv, _⟩ := C5_rotation_frame.1 rotFixture 6 0 2 .BLACK .BLACK 2 4
      (.node .BLACK 1 1 .nil .nil) (.node .BLACK 3 3 .nil .nil)
      (.node .BLACK 4 5 .nil .nil) rfl (by decide) (fun p hp => by cases hp)
    exact ⟨h', hrot, hcv⟩
  · obtain ⟨h', hrot, hcv, _⟩ := C5_rotation_frame.2 rotFixture 6 0 1 .BLACK .BLACK 2 1
      .nil .nil
      (.node .BLACK 2 4 (.node .BLACK 3 3 .nil .nil) (.node .BLACK 4 5 .nil .nil))
      rfl (by decide) (fun p hp => by cases hp)
    exact ⟨h', hrot, hcv⟩


end DS

namespace DS

theorem Tree.height_le_size : ∀ t : Tree, t.height ≤ t.size := by
  intro t
  induction t with
  | nil => simp [Tree.height, Tree.size]
  | node c i v l r ihl ihr =>
      simp only [Tree.height, Tree.size]
      omega

theorem Tree.size_eq_indices_length : ∀ t : Tree, t.size = t.indices.length := by
  intro t
  induction t with
  | nil => rfl
  | node c i v l r ihl ihr =>
      simp only [Tree.size, Tree.indices, List.length_append, List.length_cons]
      omega

/-- A duplicate-free extracted tree has no more nodes than the arena. -/
theorem size_le_heap {h : Heap} {f : Nat} {p : Ptr} {t : Tree}
    (ht : toTree h f p = some t) (hnd : t.indices.Nodup) :
    t.size ≤ h.length := by
  rw [Tree.size_eq_indices_length]
  have hsub : t.indices.toFinset ⊆ Finset.range h.length := by
    intro i hi
    rw [List.mem_toFinset] at hi
    rw [Finset.mem_range]
    exact toTree_indices_lt h ht i hi
  have := Finset.card_le_card hsub
  rw [Finset.card_range] at this
  rw [← List.toFinset_card_of_nodup hnd]
  exact this

/-- The descent loop of `Search`, run with more fuel than the height of the
extracted tree, terminates with a result that the descent relation describes,
and any returned node lies in the tree. -/
theorem SearchLoop_toTree (h : Heap) (value : Int) :
    ∀ (t : Tree) {f : Nat} {p : Ptr}, toTree h f p = some t →
      ∀ {fuel : Nat}, t.height < fuel →
      ∃ res, SearchLoop h value fuel p = some res ∧
        DescendsTo h value p res ∧ ∀ i, res = some i → i ∈ t.indices := by
  intro t
  induction t with
  | nil =>
      intro f p ht fuel hfuel
      have hp : p = none := by
        cases p with
        | none => rfl
        | some i =>
            obtain ⟨f', l, r, hf, hi, hl, hr, he⟩ := toTree_some_elim ht
            cases he
      subst hp
      refine ⟨none, ?_, DescendsTo.nil, by simp⟩
      cases fuel <;> rfl
  | node c i v l r ihl ihr =>
      intro f p ht fuel hfuel
      have hp : p = some i := toTree_node_ptr ht
      subst hp
      obtain ⟨f', l', r', hf, hilen, hl, hr, he⟩ := toTree_some_elim ht
      injection he with hce hie hve hle hre
      subst hle
      subst hre
      obtain ⟨fuel', rfl⟩ : ∃ k, fuel = k + 1 := ⟨fuel - 1, by
        simp only [Tree.height] at hfuel
        omega⟩
      simp only [Tree.height] at hfuel
      by_cases heq : value = (getNode h i).value
      · refine ⟨some i, ?_, DescendsTo.stop i heq, fun j hj => ?_⟩
        · simp [SearchLoop, heq]
        · cases hj
          exact mem_indices_node.mpr (Or.inr (Or.inl rfl))
      · by_cases hlt : value < (getNode h i).value
        · obtain ⟨res, hres, hdesc, hmem⟩ := @ihl _ _ hl fuel' (by
            have := le_max_left l.height r.height
            omega)
          refine ⟨res, ?_, DescendsTo.left i res heq hlt hdesc, fun j hj =>
            mem_indices_node.mpr (Or.inl (hmem j hj))⟩
          simp [SearchLoop, heq, hlt]
          exact hres
        · obtain ⟨res, hres, hdesc, hmem⟩ := @ihr _ _ hr fuel' (by
            have := le_max_right l.height r.height
            omega)
          refine ⟨res, ?_, DescendsTo.right i res heq hlt hdesc, fun j hj =>
            mem_indices_node.mpr (Or.inr (Or.inr (hmem j hj)))⟩
          simp [SearchLoop, heq, hlt]
          exact hres

/-- A descent that returns a node stopped at an equal value. -/
theorem DescendsTo_some_value {h : Heap} {value : Int} {p : Ptr} {i : Nat}
    (hd : DescendsTo h value p (some i)) : (getNode h i).value = value := by
  generalize hres : (some i : Ptr) = res at hd
  induction hd with
  | nil => cases hres
  | stop j hj => cases hres; exact hj.symm
  | left j res _ _ _ ih => exact ih hres
  | right j res _ _ _ ih => exact ih hres

end DS

namespace DS

/-- C4: on a well-formed tree, `Search` performs the pure descent from the
root — stopping and returning the current node on equality (the first match
on the descent path), going left when the value is less and right when
greater — the returned node's value equals the searched value, and the
result is absent exactly when that descent reaches an absent child.
`Search` consumes the heap immutably and returns only a pointer, so it
cannot mutate the tree. -/
theorem C4_search_pure_descent (h : Heap) (root : Ptr) (value : Int)
    (hwf : WFH h root) :
    ∃ res, Search h root value = some res ∧ DescendsTo h value root res ∧
      (∀ i, res = some i → (getNode h i).value = value) := by
  obtain ⟨t, ht, hnd, _⟩ := hwf
  have hfuel : t.height < h.length + 1 := by
    have h1 := Tree.height_le_size t
    have h2 := size_le_heap ht hnd
    omega
  obtain ⟨res, hres, hdesc, _⟩ := SearchLoop_toTree h value t ht hfuel
  exact ⟨res, hres, hdesc, fun i hi => DescendsTo_some_value (hi ▸ hdesc)⟩

/-- Witness for C4: searching 7 in the `RemoveTest` fixture follows the
descent and returns the node holding 7. -/
theorem C4_search_pure_descent_witness :
    ∃ res, Search remFixture (some 0) 7 = some res ∧
      DescendsTo remFixture 7 (some 0) res ∧
      (∀ i, res = some i → (getNode remFixture i).value = 7) :=
  C4_search_pure_descent remFixture (some 0) 7 ⟨_, rfl, by decide, by decide⟩

end DS
